import Mathlib

/-!
# LibDNN BLAS level 3 (GEMM): a verification development

Shallow embedding of `src/caffe/libdnn/libdnn_blas_3.cpp`:

* `initialize_gemm_tuner`   the tunable-parameter declarations and constraints,
* `generate_gemm_source`    the text it writes and the statements of the generated kernel
                            that carry its index arithmetic,
* `gemm_string_identifier`  the cache key,
* `gemm`                    the compile-or-fetch-then-launch path.

Conventions.  `uint_tp` / `int_tp` are the index types of the build (32 or 64 bit wide); their
width is the parameter `w` and unsigned arithmetic is taken modulo `2 ^ w`.  Strings are Lean
strings; a `stringstream` is the string accumulated so far.
-/

set_option autoImplicit false

namespace LibDNNBlas

/-! ## Launch geometry (`gemm`, lines 335-345) -/

/-- The two vectors handed to `kernel->Execute(group, local)`. -/
structure LaunchGeometry where
  group : List Nat
  local_ : List Nat
  deriving DecidableEq, Repr

/-- Lines 335-345 of `gemm`.  `M`, `N` are `uint_tp` values, the four tuning values are what
`tuner->get_param<int>` returned, stored in `int_tp` variables.  The products `fw_div_N`,
`fw_div_M` are `int_tp`; in `(N - 1) / fw_div_N + 1` they are converted to `uint_tp`, so the
whole expression is unsigned arithmetic modulo `2 ^ w`. -/
def gemm_launch (w : Nat) (M N : Nat) (fw_wptn fw_wptm fw_wgs0 fw_wgs1 : Nat) : LaunchGeometry :=
  let fw_div_N := (fw_wptn * fw_wgs0) % 2 ^ w
  let fw_div_M := (fw_wptm * fw_wgs1) % 2 ^ w
  { group := [(((N + (2 ^ w - 1)) % 2 ^ w) / fw_div_N + 1) % 2 ^ w,
              (((M + (2 ^ w - 1)) % 2 ^ w) / fw_div_M + 1) % 2 ^ w,
              1],
    local_ := [fw_wgs0, fw_wgs1, 1] }

/-- The launch geometry as the specification words it: rounded-up quotients. -/
def spec_launch (M N wptn wptm wgs0 wgs1 : Nat) : LaunchGeometry :=
  { group := [⌈(N : ℚ) / ((wptn * wgs0 : ℕ) : ℚ)⌉₊, ⌈(M : ℚ) / ((wptm * wgs1 : ℕ) : ℚ)⌉₊, 1],
    local_ := [wgs0, wgs1, 1] }

/-! ## Cache key (`gemm_string_identifier`, lines 264-302) -/

/-- Modelled from the spec: the declaration of `CBLAS_TRANSPOSE` is not in this file; the
specification treats the transpose argument as a flag, and the source names its two values
`CblasNoTrans` and `CblasTrans`. -/
inductive CBLAS_TRANSPOSE where
  | CblasNoTrans
  | CblasTrans
  deriving DecidableEq, Repr

/-- The accumulation precisions named by the `switch` statements of the source (the
declaration of the enumeration is not in this file). -/
inductive libdnnAccumulatePrecision_t where
  | LIBDNN_ACCUMULATE_PREC_NATIVE
  | LIBDNN_ACCUMULATE_PREC_8
  | LIBDNN_ACCUMULATE_PREC_16
  | LIBDNN_ACCUMULATE_PREC_32
  | LIBDNN_ACCUMULATE_PREC_64
  deriving DecidableEq, Repr

export CBLAS_TRANSPOSE (CblasNoTrans CblasTrans)
export libdnnAccumulatePrecision_t (LIBDNN_ACCUMULATE_PREC_NATIVE LIBDNN_ACCUMULATE_PREC_8
  LIBDNN_ACCUMULATE_PREC_16 LIBDNN_ACCUMULATE_PREC_32 LIBDNN_ACCUMULATE_PREC_64)

/-- Modelled from the spec: the quantizer class is not in this file; the only thing the
signature uses of it is `get_mode_string()`, a string. -/
structure Quantizer where
  get_mode_string : String
  deriving DecidableEq, Repr

/-- Lines 264-302.  `ss` is the stream contents; `ss << x` appends, an unsigned integer is
written in decimal (`toString`). -/
def gemm_string_identifier (trans_A trans_B : CBLAS_TRANSPOSE) (M N K : Nat)
    (alpha_term beta_term : Bool) (prec : libdnnAccumulatePrecision_t)
    (in_quantizer out_quantizer : Quantizer) : String :=
  let ss := ""
  let ss := ss ++ "gemm_"
  let ss := ss ++ (if trans_A = CblasNoTrans then "TA_" else "NTA_")
  let ss := ss ++ (if trans_B = CblasNoTrans then "TB_" else "NTB_")
  let ss := ss ++ "M" ++ toString M ++ "_"
  let ss := ss ++ "N" ++ toString N ++ "_"
  let ss := ss ++ "K" ++ toString K ++ "_"
  let ss := if alpha_term then ss ++ "alpha_" else ss
  let ss := if beta_term then ss ++ "beta_" else ss
  let ss :=
    match prec with
    | LIBDNN_ACCUMULATE_PREC_8 => ss ++ "prec_8_"
    | LIBDNN_ACCUMULATE_PREC_16 => ss ++ "prec_16_"
    | LIBDNN_ACCUMULATE_PREC_32 => ss ++ "prec_32_"
    | LIBDNN_ACCUMULATE_PREC_64 => ss ++ "prec_64_"
    | _ => ss
  let ss := ss ++ "iq_" ++ in_quantizer.get_mode_string ++ "_"
  let ss := ss ++ "oq_" ++ out_quantizer.get_mode_string
  ss

/-- The problem descriptor of the specification (section 3): the signature-relevant part of a
`gemm` request. -/
structure GemmProblemDescriptor where
  transpose_A : CBLAS_TRANSPOSE
  transpose_B : CBLAS_TRANSPOSE
  M : Nat
  N : Nat
  K : Nat
  alpha_term : Bool
  beta_term : Bool
  accumulation_precision : libdnnAccumulatePrecision_t
  input_quantization_mode : String
  output_quantization_mode : String
  deriving DecidableEq, Repr

/-- The signature of a descriptor: `gemm_string_identifier` on its fields, as `gemm` calls
it (lines 316-318). -/
def signature_for (d : GemmProblemDescriptor) : String :=
  gemm_string_identifier d.transpose_A d.transpose_B d.M d.N d.K d.alpha_term d.beta_term
    d.accumulation_precision ⟨d.input_quantization_mode⟩ ⟨d.output_quantization_mode⟩

/-- Number of fields in which two descriptors differ. -/
def differing_fields (d e : GemmProblemDescriptor) : Nat :=
  (if d.transpose_A = e.transpose_A then 0 else 1) +
  (if d.transpose_B = e.transpose_B then 0 else 1) +
  (if d.M = e.M then 0 else 1) +
  (if d.N = e.N then 0 else 1) +
  (if d.K = e.K then 0 else 1) +
  (if d.alpha_term = e.alpha_term then 0 else 1) +
  (if d.beta_term = e.beta_term then 0 else 1) +
  (if d.accumulation_precision = e.accumulation_precision then 0 else 1) +
  (if d.input_quantization_mode = e.input_quantization_mode then 0 else 1) +
  (if d.output_quantization_mode = e.output_quantization_mode then 0 else 1)

/-! ### The signature layout in the words of the specification (section 4.3) -/

/-- Transpose-A marker. -/
def transpose_A_marker : CBLAS_TRANSPOSE → String
  | CblasNoTrans => "TA_"
  | CblasTrans => "NTA_"

/-- Transpose-B marker. -/
def transpose_B_marker : CBLAS_TRANSPOSE → String
  | CblasNoTrans => "TB_"
  | CblasTrans => "NTB_"

/-- Precision token of a non-native precision. -/
def precision_token : libdnnAccumulatePrecision_t → String
  | LIBDNN_ACCUMULATE_PREC_NATIVE => ""
  | LIBDNN_ACCUMULATE_PREC_8 => "prec_8_"
  | LIBDNN_ACCUMULATE_PREC_16 => "prec_16_"
  | LIBDNN_ACCUMULATE_PREC_32 => "prec_32_"
  | LIBDNN_ACCUMULATE_PREC_64 => "prec_64_"

/-- Mode token of the input quantizer. -/
def input_quantizer_token (mode : String) : String := "iq_" ++ mode ++ "_"

/-- Mode token of the output quantizer. -/
def output_quantizer_token (mode : String) : String := "oq_" ++ mode

/-- The concatenation, in the fixed order of section 4.3, of the tag, the two transpose
markers, `M<value>_N<value>_K<value>_`, the optional `alpha_`, `beta_` and precision tokens,
and the two quantizer mode tokens. -/
def signature_layout (d : GemmProblemDescriptor) : String :=
  String.join
    [ "gemm_",
      transpose_A_marker d.transpose_A,
      transpose_B_marker d.transpose_B,
      "M" ++ toString d.M ++ "_",
      "N" ++ toString d.N ++ "_",
      "K" ++ toString d.K ++ "_",
      if d.alpha_term then "alpha_" else "",
      if d.beta_term then "beta_" else "",
      if d.accumulation_precision = LIBDNN_ACCUMULATE_PREC_NATIVE then ""
        else precision_token d.accumulation_precision,
      input_quantizer_token d.input_quantization_mode,
      output_quantizer_token d.output_quantization_mode ]

/-- Decimal digits of a number, most significant first, in terms of `Nat.digits`; used to
reason about `toString`. -/
def decimal_chars (n : Nat) : List Char :=
  if n = 0 then ['0'] else ((Nat.digits 10 n).reverse).map Nat.digitChar

/-! ## Parameter space (`initialize_gemm_tuner`, lines 9-71) -/

/-- The compute backends of a device; the source names `BACKEND_CUDA` and treats every other
backend alike (the declaration of the enumeration is not in this file). -/
inductive Backend where
  | BACKEND_CPU
  | BACKEND_CUDA
  | BACKEND_OPENCL
  | BACKEND_HIP
  deriving DecidableEq, Repr

export Backend (BACKEND_CPU BACKEND_CUDA BACKEND_OPENCL BACKEND_HIP)

/-- What `initialize_gemm_tuner` asks of `dev_ptr_`: the maximum work-group size per
dimension and the backend kind. -/
structure Device where
  workgroup_size : Nat → Nat
  backend : Backend

/-- Modelled from the spec: the tuner class is not in this file; section 4.1 gives its
contract as `declare_ranged(name, default, min, max, step)`,
`declare_set(name, default, allowed_values)` and a boolean declaration that is either fixed
or free to vary.  A declaration records the arguments of the call, in the order of the call.
The third argument of `add_boolean_param` is read as the comments of lines 64-69 use it: it
is `false` where the backend needs the default ("CUDA needs the vector elements unrolled")
and `true` where the other value may be tried ("may save registers by not doing it"). -/
inductive TunerParam where
  | set_param (name : String) (def_value : Int) (values : List Int)
  | range_param (name : String) (def_value min max step : Int)
  | boolean_param (name : String) (def_value : Bool) (other_value_allowed : Bool)
  deriving DecidableEq, Repr

/-- Modelled from the spec: `add_constraint(referenced_names, owned_names, predicate)`.  The
predicate is undefined (`none`) where the C++ lambda takes a remainder by zero. -/
structure TunerConstraint where
  con_params : List String
  con_adapt : List String
  func : List Int → Option Bool

/-- Modelled from the spec: a tuner is the list of its declared parameters and the list of
its registered constraints, in declaration order. -/
structure LibDNNTuner where
  params : List TunerParam
  constraints : List TunerConstraint

/-- Name of a declared parameter. -/
def TunerParam.name : TunerParam → String
  | .set_param n _ _ => n
  | .range_param n _ _ _ _ => n
  | .boolean_param n _ _ => n

/-- Default of a declared parameter, as an integer. -/
def TunerParam.default_value : TunerParam → Int
  | .set_param _ d _ => d
  | .range_param _ d _ _ _ => d
  | .boolean_param _ d _ => if d then 1 else 0

def LibDNNTuner.add_set_param (t : LibDNNTuner) (name : String) (def_value : Int)
    (values : List Int) : LibDNNTuner :=
  { t with params := t.params ++ [.set_param name def_value values] }

def LibDNNTuner.add_range_param (t : LibDNNTuner) (name : String)
    (def_value min max step : Int) : LibDNNTuner :=
  { t with params := t.params ++ [.range_param name def_value min max step] }

def LibDNNTuner.add_boolean_param (t : LibDNNTuner) (name : String) (def_value : Bool)
    (other_value_allowed : Bool) : LibDNNTuner :=
  { t with params := t.params ++ [.boolean_param name def_value other_value_allowed] }

/-- Modelled from the spec: what `add_boolean_param` does with its arguments is not in this
file.  A boolean declaration in the terms of the contract
`declare_boolean(name, default, is_fixed)` of section 4.1: the parameter is fixed (cannot be
searched) when no value other than its default may be tried. -/
def TunerParam.as_declare_boolean : TunerParam → Option (String × Bool × Bool)
  | .boolean_param name def_value other_value_allowed =>
    some (name, def_value, !other_value_allowed)
  | _ => none

def LibDNNTuner.add_constraint (t : LibDNNTuner) (con_params con_adapt : List String)
    (func : List Int → Option Bool) : LibDNNTuner :=
  { t with constraints := t.constraints ++ [⟨con_params, con_adapt, func⟩] }

/-- Modelled from the spec: `get_param` reads the value the tuner currently gives to a
parameter.  Nothing in this file runs a tuning search, so that value is the default of the
latest declaration of that name (0 when the name was never declared). -/
def LibDNNTuner.get_param (t : LibDNNTuner) (name : String) : Int :=
  match t.params.reverse.find? (fun p => p.name == name) with
  | some p => p.default_value
  | none => 0

/-- The inner loop of lines 14-17: `for (i = 0; i < limit; i += 4) push_back(i)`, with the
number of remaining iterations bounded by `fuel`. -/
def workgroup_sizes_loop (limit : Nat) : Nat → Nat → List Int → List Int
  | 0, _, acc => acc
  | fuel + 1, i, acc =>
    if i < limit then workgroup_sizes_loop limit fuel (i + 4) (acc ++ [(i : Int)]) else acc

/-- The candidate set built for one work-group dimension (`limit` iterations are enough). -/
def workgroup_sizes (limit : Nat) : List Int :=
  workgroup_sizes_loop limit limit 0 []

/-- The lambda of lines 31-33 and 37-39: `(args[0] * args[1]) % args[2] == 0`. -/
def constraint_product_divisible (args : List Int) : Option Bool :=
  match args with
  | [a0, a1, a2] => if a2 = 0 then none else some (Int.tmod (a0 * a1) a2 == 0)
  | _ => none

/-- The lambda of lines 43-45, 49-51 and 56-58: `args[0] % args[1] == 0`. -/
def constraint_divisible (args : List Int) : Option Bool :=
  match args with
  | [a0, a1] => if a1 = 0 then none else some (Int.tmod a0 a1 == 0)
  | _ => none

/-- Lines 9-71. -/
def initialize_gemm_tuner (dev : Device) (tuner : LibDNNTuner) : LibDNNTuner :=
  -- Work groups
  let tuner := tuner.add_set_param "workgroup_size_0" 16 (workgroup_sizes (dev.workgroup_size 0))
  let tuner := tuner.add_set_param "workgroup_size_1" 16 (workgroup_sizes (dev.workgroup_size 1))
  -- TSK
  let tuner := tuner.add_range_param "TSK" 8 1 32 1
  let tuner := tuner.add_range_param "TSK_UNROLL" 1 1 16 1
  let tuner := tuner.add_range_param "WPTM" 4 4 16 4
  let tuner := tuner.add_set_param "VWM" 4 [1, 2, 4, 8, 16]
  let tuner := tuner.add_range_param "WPTN" 4 4 16 4
  let tuner := tuner.add_set_param "VWN" 4 [1, 2, 4, 8, 16]
  let tuner := tuner.add_constraint ["TSK", "WPTM", "workgroup_size_1"] ["TSK"]
    constraint_product_divisible
  let tuner := tuner.add_constraint ["TSK", "WPTN", "workgroup_size_0"] ["TSK"]
    constraint_product_divisible
  let tuner := tuner.add_constraint ["TSK", "TSK_UNROLL"] ["TSK_UNROLL"] constraint_divisible
  let tuner := tuner.add_constraint ["WPTM", "VWM"] ["WPTM"] constraint_divisible
  let tuner := tuner.add_constraint ["WPTN", "VWN"] ["WPTN"] constraint_divisible
  let tuner := tuner.add_range_param "lmem_pad_A" 0 0 8 1
  let tuner := tuner.add_range_param "lmem_pad_B" 0 0 8 1
  if dev.backend = BACKEND_CUDA then
    -- CUDA needs the vector elements unrolled
    tuner.add_boolean_param "vector_unroll" true false
  else
    -- OpenCL does not need the vector elements unrolled, and may
    -- save registers by not doing it
    tuner.add_boolean_param "vector_unroll" true true

/-- A configuration (one value per parameter name) satisfies a constraint when the predicate,
applied to the values of the referenced names, is defined and true. -/
def TunerConstraint.holds (c : TunerConstraint) (cfg : String → Int) : Prop :=
  c.func (c.con_params.map cfg) = some true

instance (c : TunerConstraint) (cfg : String → Int) : Decidable (c.holds cfg) :=
  inferInstanceAs (Decidable (_ = _))

/-- A configuration satisfies every constraint registered in a tuner. -/
def LibDNNTuner.satisfied_by (t : LibDNNTuner) (cfg : String → Int) : Prop :=
  ∀ c ∈ t.constraints, c.holds cfg

instance (t : LibDNNTuner) (cfg : String → Int) : Decidable (t.satisfied_by cfg) :=
  inferInstanceAs (Decidable (∀ c ∈ t.constraints, c.holds cfg))

/-- Modelled from the spec: the domain of a declared parameter (section 3): a set-valued
parameter admits its listed values, a ranged one the values `min, min + step, ...` up to
`max`, a boolean one (as 0 or 1) its default and, where it is allowed, the other value. -/
def TunerParam.admits (p : TunerParam) (v : Int) : Bool :=
  match p with
  | .set_param _ _ values => decide (v ∈ values)
  | .range_param _ _ min max step =>
    decide (min ≤ v) && decide (v ≤ max) && decide ((v - min) % step = 0)
  | .boolean_param _ d other_value_allowed =>
    if other_value_allowed then decide (v = 0 ∨ v = 1) else decide (v = if d then 1 else 0)

/-- A configuration gives every declared parameter a value of its domain. -/
def LibDNNTuner.in_domain (t : LibDNNTuner) (cfg : String → Int) : Prop :=
  ∀ p ∈ t.params, p.admits (cfg p.name) = true

instance (t : LibDNNTuner) (cfg : String → Int) : Decidable (t.in_domain cfg) :=
  inferInstanceAs (Decidable (∀ p ∈ t.params, p.admits (cfg p.name) = true))

/-! ## Kernel source generator (`generate_gemm_source`, lines 73-261)

The generator writes kernel text.  The statements that carry the index arithmetic of the
kernel (the two tile loads and the store) are kept as small syntax trees, so that the text the
generator emits (`render`) and the index the emitted statement computes (`eval`, `run`) come
from the same object.  Kernel variables range over natural numbers. -/

/-- Integer expressions of the generated kernel text. -/
inductive KExp where
  | var (name : String)
  | add (a b : KExp)
  | mul (a b : KExp)
  | paren (a : KExp)
  deriving DecidableEq, Repr

/-- The text of an expression. -/
def KExp.render : KExp → String
  | .var n => n
  | .add a b => a.render ++ " + " ++ b.render
  | .mul a b => a.render ++ " * " ++ b.render
  | .paren a => "(" ++ a.render ++ ")"

/-- The value of an expression when the kernel variables have the values `env`. -/
def KExp.eval (env : String → Nat) : KExp → Nat
  | .var n => env n
  | .add a b => a.eval env + b.eval env
  | .mul a b => a.eval env * b.eval env
  | .paren a => a.eval env

/-- Guard conditions of the generated kernel text. -/
inductive KCond where
  | lt (a b : KExp)
  | and (a b : KCond)
  deriving DecidableEq, Repr

/-- The text of a condition. -/
def KCond.render : KCond → String
  | .lt a b => a.render ++ " < " ++ b.render
  | .and a b => a.render ++ " && " ++ b.render

/-- The truth value of a condition. -/
def KCond.eval (env : String → Nat) : KCond → Bool
  | .lt a b => decide (a.eval env < b.eval env)
  | .and a b => a.eval env && b.eval env

/-- The statement `if (guard) { dest = source[index]; } else { dest = zero; }`. -/
structure GuardedLoad where
  guard : KCond
  dest : String
  source : String
  index : KExp
  zero : String
  deriving DecidableEq, Repr

/-- The lines a guarded load is emitted as. -/
def GuardedLoad.render (ld : GuardedLoad) : List String :=
  [ "if (" ++ ld.guard.render ++ ") \x7b",
    ld.dest ++ " = " ++ ld.source ++ "[" ++ ld.index.render ++ "];",
    "\x7d else \x7b",
    ld.dest ++ " = " ++ ld.zero ++ ";",
    "\x7d" ]

/-- Running a guarded load against a global buffer `mem`: the value stored into the local
tile element and the list of global indices read. -/
def GuardedLoad.run (ld : GuardedLoad) (env : String → Nat) (mem : Nat → Int) :
    Int × List Nat :=
  if ld.guard.eval env then (mem (ld.index.eval env), [ld.index.eval env]) else (0, [])

/-- The statement `if (guard) { dest[index] = value; }`. -/
structure GuardedStore where
  guard : KCond
  dest : String
  index : KExp
  value : String
  deriving DecidableEq, Repr

/-- The lines a guarded store is emitted as. -/
def GuardedStore.render (st : GuardedStore) : List String :=
  [ "if (" ++ st.guard.render ++ ") \x7b",
    st.dest ++ "[" ++ st.index.render ++ "] = " ++ st.value ++ ";",
    "\x7d" ]

/-- Running a guarded store: the list of global indices written. -/
def GuardedStore.run (st : GuardedStore) (env : String → Nat) : List Nat :=
  if st.guard.eval env then [st.index.eval env] else []

/-- Flags of `create_kernel_arg`. -/
inductive KernelArgFlag where
  | KERNEL_ARG_CONST
  | KERNEL_ARG_GLOBAL_MEM
  | KERNEL_ARG_RESTRICT
  deriving DecidableEq, Repr

export KernelArgFlag (KERNEL_ARG_CONST KERNEL_ARG_GLOBAL_MEM KERNEL_ARG_RESTRICT)

/-- One kernel parameter: `create_kernel_arg<type>(name, flags)`. -/
structure KernelArg where
  type : String
  name : String
  flags : List KernelArgFlag
  deriving DecidableEq, Repr

/-- Modelled from the spec: `device_type_name<intN_t>()` is not in this file; it names the
fixed-width `N`-bit integer type of the device. -/
def device_type_name (bits : Nat) : String := "int" ++ toString bits ++ "_t"

/-- What `generate_gemm_source` computes: the accumulator type, the derived tile sizes and
per-thread load counts, the kernel parameter list, the load and store statements, and the
values it passes to `define`. -/
structure GemmSource where
  accreg_type : String
  tsm : Int
  tsn : Int
  lpta : Int
  lptb : Int
  args : List KernelArg
  load_A : GuardedLoad
  load_B : GuardedLoad
  store_C : GuardedStore
  defines : List (String × Int)
  deriving DecidableEq, Repr

/-- Lines 73-261, the parts listed in `GemmSource`.  `get_param` is the read interface of the
tuner (`tuner->get_param<int>`); `int` arithmetic is taken without overflow. -/
def generate_gemm_source (get_param : String → Int) (trans_A trans_B : Bool) (M N K : Nat)
    (alpha_term beta_term : Bool) (prec : libdnnAccumulatePrecision_t) : GemmSource :=
  let accreg_type :=
    match prec with
    | LIBDNN_ACCUMULATE_PREC_NATIVE => "MItype"
    | LIBDNN_ACCUMULATE_PREC_8 => device_type_name 8
    | LIBDNN_ACCUMULATE_PREC_16 => device_type_name 16
    | LIBDNN_ACCUMULATE_PREC_32 => device_type_name 32
    | LIBDNN_ACCUMULATE_PREC_64 => device_type_name 64
  let wptn := get_param "WPTN"
  let wptm := get_param "WPTM"
  let tsk := get_param "TSK"
  let rtsn := get_param "workgroup_size_0"
  let rtsm := get_param "workgroup_size_1"
  let tsm := wptm * rtsm
  let tsn := wptn * rtsn
  let lpta := Int.tdiv (tsm * tsk) (rtsm * rtsn)
  let lptb := Int.tdiv (tsn * tsk) (rtsm * rtsn)
  -- GEMM definitions and local memory padding
  let defines : List (String × Int) :=
    [("M", M), ("N", N), ("K", K),
     ("v_pad_A", get_param "lmem_pad_A"), ("v_pad_B", get_param "lmem_pad_B")]
  let args : List KernelArg := []
  let args := if alpha_term then args ++ [⟨"MItype", "alpha", [KERNEL_ARG_CONST]⟩] else args
  let args := args ++
    [⟨"MItype", "A", [KERNEL_ARG_RESTRICT, KERNEL_ARG_GLOBAL_MEM, KERNEL_ARG_CONST]⟩]
  let args := args ++
    [⟨"MItype", "B", [KERNEL_ARG_RESTRICT, KERNEL_ARG_GLOBAL_MEM, KERNEL_ARG_CONST]⟩]
  let args := if beta_term then args ++ [⟨"MItype", "beta", [KERNEL_ARG_CONST]⟩] else args
  let args := args ++ [⟨"MOtype", "C", [KERNEL_ARG_GLOBAL_MEM, KERNEL_ARG_RESTRICT]⟩]
  -- Load one tile of A into local memory
  let load_A : GuardedLoad :=
    { guard := .and (.lt (.paren (.add (.var "offM") (.var "row"))) (.var "M"))
        (.lt (.var "tiledIndex") (.var "K")),
      dest := "Asub[row][col]",
      source := "Aptr",
      index :=
        if trans_A then
          .add (.paren (.add (.var "offM") (.var "row"))) (.mul (.var "tiledIndex") (.var "M"))
        else
          .add (.mul (.paren (.add (.var "offM") (.var "row"))) (.var "K")) (.var "tiledIndex"),
      zero := "(MItype)0.0" }
  -- Load one tile of B into local memory
  let load_B : GuardedLoad :=
    { guard := .and (.lt (.paren (.add (.var "offN") (.var "col"))) (.var "N"))
        (.lt (.var "tiledIndex") (.var "K")),
      dest := "Bsub[row][col]",
      source := "Bptr",
      index :=
        if trans_B then
          .add (.mul (.paren (.add (.var "offN") (.var "col"))) (.var "K")) (.var "tiledIndex")
        else
          .add (.paren (.add (.var "offN") (.var "col"))) (.mul (.var "tiledIndex") (.var "N")),
      zero := "(MItype)0" }
  -- Store the final results in C
  let store_C : GuardedStore :=
    { guard := .and (.lt (.var "globalRow") (.var "M")) (.lt (.var "globalCol") (.var "N")),
      dest := "Cptr",
      index := .add (.mul (.var "globalRow") (.var "N")) (.var "globalCol"),
      value := (if prec ≠ LIBDNN_ACCUMULATE_PREC_NATIVE then "(MItype)" else "") ++
        "(((" ++ accreg_type ++ "*)(&(Creg[wm][wn/VWN])))[wn%VWN])" }
  { accreg_type := accreg_type, tsm := tsm, tsn := tsn, lpta := lpta, lptb := lptb,
    defines := defines, args := args, load_A := load_A, load_B := load_B, store_C := store_C }

/-- The text of lines 192-202 as the source writes it, for each value of `trans_A`. -/
def emitted_load_A (trans_A : Bool) : List String :=
  [ "if ((offM + row) < M && tiledIndex < K) \x7b",
    "Asub[row][col] = " ++
      (if trans_A then "Aptr[(offM + row) + tiledIndex * M];"
       else "Aptr[(offM + row) * K + tiledIndex];"),
    "\x7d else \x7b",
    "Asub[row][col] = (MItype)0.0;",
    "\x7d" ]

/-- The text of lines 215-225 as the source writes it, for each value of `trans_B`. -/
def emitted_load_B (trans_B : Bool) : List String :=
  [ "if ((offN + col) < N && tiledIndex < K) \x7b",
    (if trans_B then "Bsub[row][col] = Bptr[(offN + col) * K + tiledIndex];"
     else "Bsub[row][col] = Bptr[(offN + col) + tiledIndex * N];"),
    "\x7d else \x7b",
    "Bsub[row][col] = (MItype)0;",
    "\x7d" ]

/-- The text of lines 246-253 as the source writes it. -/
def emitted_store_C (prec : libdnnAccumulatePrecision_t) (accreg_type : String) : List String :=
  [ "if (globalRow < M && globalCol < N) \x7b",
    "Cptr[globalRow * N + globalCol] = " ++
      (if prec ≠ LIBDNN_ACCUMULATE_PREC_NATIVE then "(MItype)" else "") ++
      "(((" ++ accreg_type ++ "*)(&(Creg[wm][wn/VWN])))[wn%VWN]);",
    "\x7d" ]

/-- The values of the kernel variables that the load and store statements mention. -/
def kernel_env (M N K offM offN row col tiledIndex globalRow globalCol : Nat) : String → Nat :=
  fun name =>
    if name = "M" then M
    else if name = "N" then N
    else if name = "K" then K
    else if name = "offM" then offM
    else if name = "offN" then offN
    else if name = "row" then row
    else if name = "col" then col
    else if name = "tiledIndex" then tiledIndex
    else if name = "globalRow" then globalRow
    else if name = "globalCol" then globalCol
    else 0

/-! ## Dispatcher (`gemm`, lines 304-358)

The engine state is the program cache of `LibDNNBlas` together with a trace of the calls made
on the collaborators.  The mutex is not modelled: one call runs at a time. -/

/-- The program objects `gemm` can reach: the cache slot `programs_[id]` and the program of
the engine itself, `this->program_`. -/
inductive ProgramRef where
  | cached (id : Nat)
  | engine_program
  deriving DecidableEq, Repr

/-- Calls made on the collaborators, in program order. -/
inductive Event where
  | tuner_initialized (id : Nat)
  | source_generated (id : Nat) (trans_A trans_B alpha_term beta_term : Bool)
  | set_source (p : ProgramRef)
  | Compile (p : ProgramRef)
  | GetKernel (p : ProgramRef) (name : String)
  | add_arg (name : String)
  | Execute (group local_ : List Nat)
  deriving DecidableEq, Repr

/-- A device program: the source set on it and how often it was compiled. -/
structure DeviceProgram where
  source : Option GemmSource
  compile_count : Nat
  deriving DecidableEq, Repr

/-- The members of `LibDNNBlas` that `gemm` uses, and the trace. -/
structure BlasState where
  program_map_ : List (String × Nat)
  programs_ : List DeviceProgram
  program_tuners_ : List LibDNNTuner
  program_ready_ : List Bool
  trace : List Event

/-- The state of a freshly constructed engine. -/
def BlasState.empty : BlasState :=
  { program_map_ := [], programs_ := [], program_tuners_ := [], program_ready_ := [],
    trace := [] }

/-- Modelled from the spec: `get_id` is not in this file; section 4.3 gives it as
`get_or_create(signature)`: it returns the existing entry, or allocates a new one with an
empty tuning configuration and an unready compiled-kernel slot, and never removes entries. -/
def get_id (identifier : String) (s : BlasState) : Nat × BlasState :=
  match s.program_map_.lookup identifier with
  | some id => (id, s)
  | none =>
    let id := s.programs_.length
    (id, { s with
      program_map_ := s.program_map_ ++ [(identifier, id)],
      programs_ := s.programs_ ++ [⟨none, 0⟩],
      program_tuners_ := s.program_tuners_ ++ [⟨[], []⟩],
      program_ready_ := s.program_ready_ ++ [false] })

/-- The arguments of one `gemm` request; the operands `A`, `B`, `C` are device buffers and
only their place in the argument list is recorded. -/
structure GemmCall where
  trans_A : CBLAS_TRANSPOSE
  trans_B : CBLAS_TRANSPOSE
  M : Nat
  N : Nat
  K : Nat
  alpha : Int
  beta : Int
  prec : libdnnAccumulatePrecision_t
  in_quantizer : Quantizer
  out_quantizer : Quantizer
  deriving DecidableEq, Repr

/-- The source `gemm` generates for a request with tuner `tuner` (lines 326-329): note the
two flag arguments `trans_A == CblasNoTrans` and `trans_B == CblasTrans`. -/
def gemm_generated_source (tuner : LibDNNTuner) (c : GemmCall) : GemmSource :=
  generate_gemm_source tuner.get_param
    (decide (c.trans_A = CblasNoTrans)) (decide (c.trans_B = CblasTrans))
    c.M c.N c.K (c.alpha != 1) (c.beta != 0) c.prec

/-- Lines 304-358, with `Compile` succeeding. -/
def gemm (w : Nat) (dev : Device) (c : GemmCall) (s : BlasState) : BlasState :=
  let alpha_term := c.alpha != 1
  let beta_term := c.beta != 0
  let r := get_id (gemm_string_identifier c.trans_A c.trans_B c.M c.N c.K
    alpha_term beta_term c.prec c.in_quantizer c.out_quantizer) s
  let id : Nat := r.1
  let s : BlasState := r.2
  let tuner : LibDNNTuner := s.program_tuners_.getD id ⟨[], []⟩
  let program : DeviceProgram := s.programs_.getD id ⟨none, 0⟩
  let compiled : LibDNNTuner × BlasState :=
    if !(s.program_ready_.getD id false) then
      let tuner := initialize_gemm_tuner dev tuner
      let ss := gemm_generated_source tuner c
      let program := { program with source := some ss }
      let program := { program with compile_count := program.compile_count + 1 }
      (tuner, { s with
        program_tuners_ := s.program_tuners_.set id tuner,
        programs_ := s.programs_.set id program,
        trace := s.trace ++
          [Event.tuner_initialized id,
           Event.source_generated id (decide (c.trans_A = CblasNoTrans))
             (decide (c.trans_B = CblasTrans)) alpha_term beta_term,
           Event.set_source (ProgramRef.cached id), Event.Compile (ProgramRef.cached id)] })
    else (tuner, s)
  let tuner : LibDNNTuner := compiled.1
  let s : BlasState := compiled.2
  let s : BlasState :=
    { s with trace := s.trace ++ [Event.GetKernel ProgramRef.engine_program "libdnn_gemm"] }
  let fw_wptn := tuner.get_param "WPTN"
  let fw_wptm := tuner.get_param "WPTM"
  let fw_wgs0 := tuner.get_param "workgroup_size_0"
  let fw_wgs1 := tuner.get_param "workgroup_size_1"
  let geometry := gemm_launch w c.M c.N fw_wptn.toNat fw_wptm.toNat fw_wgs0.toNat fw_wgs1.toNat
  let s : BlasState :=
    if alpha_term then { s with trace := s.trace ++ [Event.add_arg "alpha"] } else s
  let s : BlasState := { s with trace := s.trace ++ [Event.add_arg "A"] }
  let s : BlasState := { s with trace := s.trace ++ [Event.add_arg "B"] }
  let s : BlasState :=
    if beta_term then { s with trace := s.trace ++ [Event.add_arg "beta"] } else s
  let s : BlasState := { s with trace := s.trace ++ [Event.add_arg "C"] }
  { s with trace := s.trace ++ [Event.Execute geometry.group geometry.local_] }

/-- The names bound by `add_arg` in a trace, in order. -/
def bound_args : List Event → List String
  | [] => []
  | .add_arg name :: rest => name :: bound_args rest
  | _ :: rest => bound_args rest

/-- A request used in the examples: `C ← A·B` for 2×3 and 3×2 operands, no transposition. -/
def example_call : GemmCall :=
  { trans_A := CblasNoTrans, trans_B := CblasNoTrans, M := 2, N := 2, K := 3,
    alpha := 1, beta := 0, prec := LIBDNN_ACCUMULATE_PREC_NATIVE,
    in_quantizer := ⟨"q"⟩, out_quantizer := ⟨"q"⟩ }

/-- A device used in the examples: an OpenCL device with 256 work-items per dimension. -/
def example_device : Device :=
  { workgroup_size := fun _ => 256, backend := BACKEND_OPENCL }

/-- A configuration with unequal work-group extents: every value lies in its declared domain
and every registered constraint holds. -/
def asymmetric_config : String → Int :=
  fun name =>
    if name = "workgroup_size_0" then 8
    else if name = "workgroup_size_1" then 4
    else if name = "TSK" then 1
    else if name = "TSK_UNROLL" then 1
    else if name = "WPTM" then 4
    else if name = "WPTN" then 8
    else if name = "VWM" then 4
    else if name = "VWN" then 4
    else if name = "vector_unroll" then 1
    else 0

/-- A CUDA device used in the examples. -/
def example_cuda_device : Device :=
  { workgroup_size := fun _ => 1024, backend := BACKEND_CUDA }

/-- A device whose maximum work-group size is 16 in each dimension. -/
def small_device : Device :=
  { workgroup_size := fun _ => 16, backend := BACKEND_OPENCL }

/-- The default configuration with `workgroup_size_1` replaced by the candidate value 0. -/
def zero_extent_config : String → Int :=
  fun name =>
    if name = "workgroup_size_0" then 16
    else if name = "workgroup_size_1" then 0
    else if name = "TSK" then 8
    else if name = "TSK_UNROLL" then 1
    else if name = "WPTM" then 4
    else if name = "WPTN" then 4
    else if name = "VWM" then 4
    else if name = "VWN" then 4
    else if name = "vector_unroll" then 1
    else 0

/-! ## Thread coordinates of the generated kernel (lines 152-164, 187-190, 210-213, 238-245) -/

/-- The programs on which `GetKernel` was called in a trace, in order. -/
def kernel_sources : List Event → List ProgramRef
  | [] => []
  | .GetKernel p _ :: rest => p :: kernel_sources rest
  | _ :: rest => kernel_sources rest

/-- The programs on which `Compile` was called in a trace, in order. -/
def compiled_programs : List Event → List ProgramRef
  | [] => []
  | .Compile p :: rest => p :: compiled_programs rest
  | _ :: rest => compiled_programs rest

/-- One execution of the innermost store statement: the work-group, the thread inside it and
the register indices of the two store loops. -/
structure StoreSite where
  group_id_0 : Nat
  group_id_1 : Nat
  tidm : Nat
  tidn : Nat
  wm : Nat
  wn : Nat
  deriving DecidableEq, Repr

/-- Line 240: `globalRow = offM + tidm + wm * RTSM`. -/
def globalRow_expr : KExp :=
  .add (.add (.var "offM") (.var "tidm")) (.mul (.var "wm") (.var "RTSM"))

/-- Line 244: `globalCol = offN + tidn + wn * RTSN`. -/
def globalCol_expr : KExp :=
  .add (.add (.var "offN") (.var "tidn")) (.mul (.var "wn") (.var "RTSN"))

/-- The kernel variables at a store site: lines 154-164 set `tidn`, `tidm` to the local ids and
`offN = TSN * group_id(0)`, `offM = TSM * group_id(1)`. -/
def store_env (TSM TSN RTSM RTSN : Nat) (s : StoreSite) : String → Nat :=
  fun name =>
    if name = "offM" then TSM * s.group_id_1
    else if name = "offN" then TSN * s.group_id_0
    else if name = "tidm" then s.tidm
    else if name = "tidn" then s.tidn
    else if name = "wm" then s.wm
    else if name = "wn" then s.wn
    else if name = "RTSM" then RTSM
    else if name = "RTSN" then RTSN
    else 0

/-- The row of `C` addressed at a store site. -/
def store_globalRow (TSM TSN RTSM RTSN : Nat) (s : StoreSite) : Nat :=
  globalRow_expr.eval (store_env TSM TSN RTSM RTSN s)

/-- The column of `C` addressed at a store site. -/
def store_globalCol (TSM TSN RTSM RTSN : Nat) (s : StoreSite) : Nat :=
  globalCol_expr.eval (store_env TSM TSN RTSM RTSN s)

/-- Lines 187-188 and 210-211: `tid = tidm * RTSN + tidn; id = l * RTSN * RTSM + tid`. -/
def load_id (RTSN RTSM l tidm tidn : Nat) : Nat :=
  let tid := tidm * RTSN + tidn
  l * RTSN * RTSM + tid

/-- The configuration that gives the five tile parameters the stated values. -/
def tile_config (rtsn rtsm tsk wptm wptn : Nat) : String → Int :=
  fun name =>
    if name = "workgroup_size_0" then rtsn
    else if name = "workgroup_size_1" then rtsm
    else if name = "TSK" then tsk
    else if name = "WPTM" then wptm
    else if name = "WPTN" then wptn
    else 0

/-! ## The generated text (`generate_gemm_source`, lines 116-260)

The stream `ss` is the concatenation of the pieces written to it.  A piece is either text the
generator writes itself (`lit`) or text returned by a collaborator (`frag`). -/

/-- Modelled from the spec: the text primitives of the device backend and the two delegated
generation steps `generate_accreg_init` and `generate_gemm_core` are not in this file
(section 6 lists them as consumed interfaces).  Each field is the text the collaborator
returns for the given arguments. -/
structure DeviceText where
  setup : String
  atomics : String
  device_type_name_MItype : String
  device_type_name_MOtype : String
  define_vector_type : String → Nat → Nat → String
  vector_accessors : String
  define : String → Int → String
  function : String → List KernelArg → String
  local_id : Nat → String
  group_id : Nat → String
  local_mem : String → String → String
  local_barrier : String
  generate_accreg_init : Bool → Bool → Bool → libdnnAccumulatePrecision_t → String
  generate_gemm_core : Bool → Bool → libdnnAccumulatePrecision_t → String

/-- One `ss << ...` item. -/
inductive Piece where
  | lit (text : String)
  | frag (text : String)
  deriving DecidableEq, Repr

/-- The text of a piece. -/
def Piece.text : Piece → String
  | .lit t => t
  | .frag t => t

/-- Whether a piece is written by the generator itself. -/
def Piece.is_lit : Piece → Bool
  | .lit _ => true
  | .frag _ => false

/-- The stream after all pieces were written. -/
def concat_pieces : List Piece → String
  | [] => ""
  | p :: ps => p.text ++ concat_pieces ps

/-- A list of lines, each followed by `std::endl`, as literal pieces. -/
def lines (ls : List String) : List Piece :=
  ls.map (fun l => Piece.lit (l ++ "\n"))

/-- Lines 116-260: everything written to `ss`, in order. -/
def generate_gemm_source_pieces (dt : DeviceText) (get_param : String → Int)
    (trans_A trans_B : Bool) (M N K : Nat) (alpha_term beta_term : Bool)
    (prec : libdnnAccumulatePrecision_t) : List Piece :=
  let src := generate_gemm_source get_param trans_A trans_B M N K alpha_term beta_term prec
  let tsk := get_param "TSK"
  [ .frag dt.setup,
    .frag dt.atomics,
    .frag (dt.define_vector_type dt.device_type_name_MItype 0 16),
    .frag (dt.define_vector_type dt.device_type_name_MItype 0 16),
    .frag (dt.define_vector_type dt.device_type_name_MOtype 0 16),
    .frag dt.vector_accessors ] ++
  -- GEMM definitions and local memory padding
  src.defines.map (fun d => Piece.frag (dt.define d.1 d.2)) ++
  [ .frag (dt.function "libdnn_gemm" src.args),
    -- Thread identifiers
    .lit "const int_tp tidn = ", .frag (dt.local_id 0), .lit ";\n",
    .lit "const int_tp tidm = ", .frag (dt.local_id 1), .lit ";\n",
    -- Work-group offsets
    .lit "const int_tp offN = TSN * ", .frag (dt.group_id 0), .lit ";\n",
    .lit "const int_tp offM = TSM * ", .frag (dt.group_id 1), .lit ";\n",
    -- Local tile memory
    .lit "volatile ",
    .frag (dt.local_mem "MItype"
      ("Asub[" ++ toString src.tsm ++ "]" ++ "[" ++ toString tsk ++ " + v_pad_A]")),
    .lit ";\n",
    .lit "volatile ",
    .frag (dt.local_mem "MItype"
      ("Bsub[" ++ toString tsk ++ "]" ++ "[" ++ toString src.tsn ++ " + v_pad_B]")),
    .lit ";\n",
    -- Initialize the accumulation registers
    .lit "\x7b\n",  -- Scoping for C registers
    .frag (dt.generate_accreg_init false beta_term beta_term prec) ] ++
  -- Load one tile of A into local memory
  lines
    [ "\x7b",  -- Scoping for loading A
      "#pragma unroll 4",
      "for (int_tp la = 0; la < LPTA; ++la) \x7b",
      "int_tp tid = tidm * RTSN + tidn;",
      "int_tp id = la * RTSN * RTSM + tid;",
      "int_tp row = id / TSK;",
      "int_tp col = id % TSK;",
      "int_tp tiledIndex = TSK * t + col;" ] ++
  lines (emitted_load_A trans_A) ++
  lines
    [ "\x7d",  -- LPTA
      "\x7d",  -- Scoping for loading A
  -- Load one tile of B into local memory
      "\x7b",  -- Scoping for loading B
      "#pragma unroll 4",
      "for (int_tp lb = 0; lb < LPTB; ++lb) \x7b",
      "int_tp tid = tidm * RTSN + tidn;",
      "int_tp id = lb * RTSN * RTSM + tid;",
      "int_tp row = id / TSN;",
      "int_tp col = id % TSN;",
      "int_tp tiledIndex = TSK * t + row;" ] ++
  lines (emitted_load_B trans_B) ++
  lines
    [ "\x7d",  -- LPTB
      "\x7d" ] ++  -- Scoping for loading B
  [ .frag dt.local_barrier, .lit "\n",
    .frag (dt.generate_gemm_core false alpha_term prec),
    .frag dt.local_barrier, .lit "\n" ] ++
  lines
    [ "\x7d",  -- Loop over all tiles
      "\x7d",  -- Scoping for load & compute block
  -- Store the final results in C
      "#pragma unroll",
      "for (int_tp wm=0; wm<WPTM; ++wm) \x7b",
      "int_tp globalRow = " ++ globalRow_expr.render ++ ";",
      "#pragma unroll",
      "for (int_tp wn=0; wn<WPTN; ++wn) \x7b",
      "int_tp globalCol = " ++ globalCol_expr.render ++ ";" ] ++
  lines (emitted_store_C prec src.accreg_type) ++  -- M-N-Guard
  lines
    [ "\x7d",  -- For (N)
      "\x7d",  -- For (M)
      "\x7d",  -- Scoping for C registers
      "\x7d" ]  -- Kernel

/-- The string `generate_gemm_source` returns. -/
def generate_gemm_source_text (dt : DeviceText) (get_param : String → Int)
    (trans_A trans_B : Bool) (M N K : Nat) (alpha_term beta_term : Bool)
    (prec : libdnnAccumulatePrecision_t) : String :=
  concat_pieces
    (generate_gemm_source_pieces dt get_param trans_A trans_B M N K alpha_term beta_term prec)

/-- Number of occurrences of a character in a string. -/
def char_count (c : Char) (s : String) : Nat := s.data.count c

/-- Occurrences of a character in the literal pieces. -/
def lit_count (c : Char) : List Piece → Nat
  | [] => 0
  | .lit t :: ps => char_count c t + lit_count c ps
  | .frag _ :: ps => lit_count c ps

/-- Occurrences of a character in the delegated pieces. -/
def frag_count (c : Char) : List Piece → Nat
  | [] => 0
  | .lit _ :: ps => frag_count c ps
  | .frag t :: ps => char_count c t + frag_count c ps

/-- Scanning a text with `depth` braces open: no closing brace without an open one, and none
left open at the end. -/
def well_nested : List Char → Nat → Bool
  | [], depth => depth == 0
  | c :: cs, depth =>
    if c = '\x7b' then well_nested cs (depth + 1)
    else if c = '\x7d' then
      match depth with
      | 0 => false
      | d + 1 => well_nested cs d
    else well_nested cs depth

/-- A text is brace-balanced: as many opening as closing braces, and no prefix with more
closing than opening braces. -/
def brace_balanced (s : String) : Bool := well_nested s.data 0

/-- Every delegated fragment has as many opening as closing braces, and the function header
opens exactly one brace more than it closes. -/
structure DeviceText.fragments_balanced (dt : DeviceText) : Prop where
  setup : char_count '\x7b' dt.setup = char_count '\x7d' dt.setup
  atomics : char_count '\x7b' dt.atomics = char_count '\x7d' dt.atomics
  define_vector_type : ∀ n a b, char_count '\x7b' (dt.define_vector_type n a b) =
    char_count '\x7d' (dt.define_vector_type n a b)
  vector_accessors : char_count '\x7b' dt.vector_accessors =
    char_count '\x7d' dt.vector_accessors
  define : ∀ n v, char_count '\x7b' (dt.define n v) = char_count '\x7d' (dt.define n v)
  function : ∀ n args, char_count '\x7b' (dt.function n args) =
    char_count '\x7d' (dt.function n args) + 1
  local_id : ∀ i, char_count '\x7b' (dt.local_id i) = char_count '\x7d' (dt.local_id i)
  group_id : ∀ i, char_count '\x7b' (dt.group_id i) = char_count '\x7d' (dt.group_id i)
  local_mem : ∀ t n, char_count '\x7b' (dt.local_mem t n) = char_count '\x7d' (dt.local_mem t n)
  local_barrier : char_count '\x7b' dt.local_barrier = char_count '\x7d' dt.local_barrier
  generate_accreg_init : ∀ a b c p, char_count '\x7b' (dt.generate_accreg_init a b c p) =
    char_count '\x7d' (dt.generate_accreg_init a b c p)
  generate_gemm_core : ∀ a b p, char_count '\x7b' (dt.generate_gemm_core a b p) =
    char_count '\x7d' (dt.generate_gemm_core a b p)

/-- Fragments in the style of an OpenCL backend, each brace-balanced. -/
def example_device_text : DeviceText :=
  { setup := "#define int_tp int\n",
    atomics := "",
    device_type_name_MItype := "float",
    device_type_name_MOtype := "float",
    define_vector_type := fun n _ _ => "typedef " ++ n ++ " " ++ n ++ "1;\n",
    vector_accessors := "",
    define := fun n v => "#define " ++ n ++ " " ++ toString v ++ "\n",
    function := fun n args =>
      "__kernel void " ++ n ++ "(" ++ ", ".intercalate (args.map KernelArg.name) ++ ") \x7b\n",
    local_id := fun i => "get_local_id(" ++ toString i ++ ")",
    group_id := fun i => "get_group_id(" ++ toString i ++ ")",
    local_mem := fun t n => "__local " ++ t ++ " " ++ n,
    local_barrier := "barrier(CLK_LOCAL_MEM_FENCE);",
    generate_accreg_init := fun _ _ _ _ => "MItype Creg[WPTM][WPTN/VWN];\n",
    generate_gemm_core := fun _ _ _ => "for (int_tp k = 0; k < TSK; ++k) \x7b\n\x7d\n" }

/-- The smallest collaborator texts that satisfy the balance assumption: every fragment is
empty and the function header is one opening brace. -/
def plain_device_text : DeviceText :=
  { setup := "",
    atomics := "",
    device_type_name_MItype := "",
    device_type_name_MOtype := "",
    define_vector_type := fun _ _ _ => "",
    vector_accessors := "",
    define := fun _ _ => "",
    function := fun _ _ => "\x7b",
    local_id := fun _ => "",
    group_id := fun _ => "",
    local_mem := fun _ _ => "",
    local_barrier := "",
    generate_accreg_init := fun _ _ _ _ => "",
    generate_gemm_core := fun _ _ _ => "" }

/-! ## Theorems -/

/-- The idiom `(n - 1) / d + 1` is the rounded-up quotient for positive `n` and `d`. -/
theorem ceil_div_idiom (n d : Nat) (hn : 1 ≤ n) (hd : 1 ≤ d) :
    ⌈(n : ℚ) / (d : ℚ)⌉₊ = (n - 1) / d + 1 := by
  have hdq : (0 : ℚ) < (d : ℚ) := by exact_mod_cast hd
  have hdiv : (n - 1) / d * d ≤ n - 1 := Nat.div_mul_le_self _ _
  have hmod : (n - 1) % d < d := Nat.mod_lt _ hd
  have hsplit : (n - 1) / d * d + (n - 1) % d = n - 1 := by
    rw [Nat.mul_comm]; exact Nat.div_add_mod _ _
  rw [Nat.ceil_eq_iff (Nat.succ_ne_zero _)]
  constructor
  · rw [Nat.succ_sub_one, lt_div_iff₀ hdq]
    have h2 : (n - 1) / d * d < n := by omega
    exact_mod_cast h2
  · rw [div_le_iff₀ hdq]
    have h2 : n ≤ ((n - 1) / d + 1) * d := by
      rw [Nat.add_mul]; omega
    exact_mod_cast h2

/-- Unsigned evaluation of `(n - 1) / d + 1` at width `w` is exact for `1 ≤ n < 2 ^ w`. -/
theorem unsigned_ceil_idiom (w n d : Nat) (hn : 1 ≤ n) (hnw : n < 2 ^ w)
    (hdw : d < 2 ^ w) :
    (((n + (2 ^ w - 1)) % 2 ^ w) / (d % 2 ^ w) + 1) % 2 ^ w = (n - 1) / d + 1 := by
  have h1 : n + (2 ^ w - 1) = (n - 1) + 2 ^ w := by omega
  have h2 : (n - 1) / d ≤ n - 1 := Nat.div_le_self _ _
  rw [h1, Nat.add_mod_right, Nat.mod_eq_of_lt (by omega : n - 1 < 2 ^ w), Nat.mod_eq_of_lt hdw,
    Nat.mod_eq_of_lt (by omega)]

/-- C1 (amended): for problem sizes `1 ≤ M, N < 2 ^ w` and positive tuning values whose
products `WPTN * workgroup_size_0`, `WPTM * workgroup_size_1` are representable in `int_tp`,
the grid computed by `gemm` is `(ceil(N / (WPTN*wgs0)), ceil(M / (WPTM*wgs1)), 1)` and the
local size is `(wgs0, wgs1, 1)`. -/
theorem gemm_launch_geometry (w M N wptn wptm wgs0 wgs1 : Nat)
    (hM : 1 ≤ M) (hMw : M < 2 ^ w) (hN : 1 ≤ N) (hNw : N < 2 ^ w)
    (hwptn : 0 < wptn) (hwptm : 0 < wptm) (hwgs0 : 0 < wgs0) (hwgs1 : 0 < wgs1)
    (hdivN : wptn * wgs0 < 2 ^ (w - 1)) (hdivM : wptm * wgs1 < 2 ^ (w - 1)) :
    gemm_launch w M N wptn wptm wgs0 wgs1 = spec_launch M N wptn wptm wgs0 wgs1 := by
  have hpow : 2 ^ (w - 1) ≤ 2 ^ w := Nat.pow_le_pow_right (by decide) (Nat.sub_le _ _)
  have hdN : 1 ≤ wptn * wgs0 := Nat.mul_pos hwptn hwgs0
  have hdM : 1 ≤ wptm * wgs1 := Nat.mul_pos hwptm hwgs1
  simp only [gemm_launch, spec_launch]
  rw [unsigned_ceil_idiom w N _ hN hNw (by omega),
    unsigned_ceil_idiom w M _ hM hMw (by omega),
    ceil_div_idiom N _ hN hdN, ceil_div_idiom M _ hM hdM]

/-- C1, the two scenarios of the specification on a 32-bit index build: `N = 100` with
`WPTN = 4`, `workgroup_size_0 = 16` gives 2 groups, `M = 60` with `WPTM = 4`,
`workgroup_size_1 = 16` gives 1 group. -/
theorem gemm_launch_geometry_witness :
    gemm_launch 32 60 100 4 4 16 16 = spec_launch 60 100 4 4 16 16 ∧
      gemm_launch 32 60 100 4 4 16 16 = { group := [2, 1, 1], local_ := [16, 16, 1] } :=
  ⟨gemm_launch_geometry 32 60 100 4 4 16 16 (by decide) (by decide) (by decide) (by decide)
      (by decide) (by decide) (by decide) (by decide) (by decide) (by decide),
    by decide⟩

/-- C1 as stated fails for an empty problem: with `N = 0` the unsigned `N - 1` wraps, and the
first grid dimension is `2 ^ 58` on a 64-bit index build, not `ceil(0 / 64) = 0`. -/
theorem gemm_launch_zero_N :
    (gemm_launch 64 60 0 4 4 16 16).group = [2 ^ 58, 1, 1] ∧
      (spec_launch 60 0 4 4 16 16).group = [0, 1, 1] ∧
      gemm_launch 64 60 0 4 4 16 16 ≠ spec_launch 60 0 4 4 16 16 := by
  have hc : (gemm_launch 64 60 0 4 4 16 16).group = [2 ^ 58, 1, 1] := by decide
  have hs : (spec_launch 60 0 4 4 16 16).group = [0, 1, 1] := by
    have h := ceil_div_idiom 60 (4 * 16) (by decide) (by decide)
    simp only [spec_launch]
    rw [h]
    simp
  refine ⟨hc, hs, ?_⟩
  intro h
  rw [h, hs] at hc
  exact absurd hc (by decide)

/-! ### Decimal rendering -/

theorem decimal_chars_step (n : Nat) (h : n / 10 ≠ 0) :
    decimal_chars n = decimal_chars (n / 10) ++ [Nat.digitChar (n % 10)] := by
  have hn : n ≠ 0 := by
    intro h0; subst h0; exact h rfl
  simp only [decimal_chars, if_neg hn, if_neg h]
  rw [Nat.digits_def' (by decide) (Nat.pos_of_ne_zero hn)]
  simp

theorem decimal_chars_small (n : Nat) (h : n / 10 = 0) :
    decimal_chars n = [Nat.digitChar (n % 10)] := by
  have hlt : n < 10 := by omega
  by_cases hn : n = 0
  · subst hn; rfl
  · simp only [decimal_chars, if_neg hn]
    rw [Nat.digits_of_lt 10 n hn hlt, Nat.mod_eq_of_lt hlt]
    rfl

theorem toDigitsCore_eq (fuel : Nat) : ∀ (n : Nat) (ds : List Char), n < fuel →
    Nat.toDigitsCore 10 fuel n ds = decimal_chars n ++ ds := by
  induction fuel with
  | zero => intro n ds h; omega
  | succ f ih =>
    intro n ds h
    simp only [Nat.toDigitsCore]
    split_ifs with h0
    · rw [decimal_chars_small n h0]; rfl
    · rw [ih (n / 10) _ (by omega), decimal_chars_step n h0]
      simp

theorem toString_data (n : Nat) : (toString n).data = decimal_chars n := by
  show (Nat.repr n).data = decimal_chars n
  simp only [Nat.repr, Nat.toDigits, List.asString]
  rw [toDigitsCore_eq (n + 1) n [] (Nat.lt_succ_self n)]
  simp

theorem digitChar_ne_underscore (d : Nat) (h : d < 10) : Nat.digitChar d ≠ '_' := by
  interval_cases d <;> decide

theorem digitChar_inj (a b : Nat) (ha : a < 10) (hb : b < 10)
    (h : Nat.digitChar a = Nat.digitChar b) : a = b := by
  interval_cases a <;> interval_cases b <;> first | rfl | exact absurd h (by decide)

theorem underscore_not_mem_decimal (n : Nat) : '_' ∉ decimal_chars n := by
  unfold decimal_chars
  split_ifs with h
  · decide
  · intro hmem
    rcases List.mem_map.mp hmem with ⟨d, hd, hc⟩
    have hlt : d < 10 := Nat.digits_lt_base (by decide) (List.mem_reverse.mp hd)
    exact digitChar_ne_underscore d hlt hc

theorem map_digitChar_inj : ∀ (l m : List Nat), (∀ d ∈ l, d < 10) → (∀ d ∈ m, d < 10) →
    l.map Nat.digitChar = m.map Nat.digitChar → l = m := by
  intro l
  induction l with
  | nil => intro m _ _ h; cases m with
    | nil => rfl
    | cons b m => simp at h
  | cons a l ih =>
    intro m hl hm h
    cases m with
    | nil => simp at h
    | cons b m =>
      simp only [List.map_cons, List.cons.injEq] at h
      have hab := digitChar_inj a b (hl a (List.mem_cons_self _ _)) (hm b (List.mem_cons_self _ _)) h.1
      have hlm := ih m (fun d hd => hl d (List.mem_cons_of_mem _ hd))
        (fun d hd => hm d (List.mem_cons_of_mem _ hd)) h.2
      rw [hab, hlm]

theorem decimal_chars_inj (a b : Nat) (h : decimal_chars a = decimal_chars b) : a = b := by
  have key : ∀ n : Nat, n ≠ 0 → decimal_chars n ≠ ['0'] := by
    intro n hn hc
    simp only [decimal_chars, if_neg hn] at hc
    have hne : Nat.digits 10 n ≠ [] := Nat.digits_ne_nil_iff_ne_zero.mpr hn
    have hlast := Nat.getLast_digit_ne_zero 10 hn
    have hrev : (Nat.digits 10 n).reverse = [0] := by
      have hc0 : ((Nat.digits 10 n).reverse).map Nat.digitChar = [0].map Nat.digitChar := hc
      apply map_digitChar_inj _ _ _ _ hc0
      · intro d hd; exact Nat.digits_lt_base (by decide) (List.mem_reverse.mp hd)
      · intro d hd; simp at hd; omega
    have hd : Nat.digits 10 n = [0] := by
      have := congrArg List.reverse hrev
      simpa using this
    apply hlast
    simp [hd]
  by_cases ha : a = 0
  · by_cases hb : b = 0
    · rw [ha, hb]
    · exfalso; apply key b hb; rw [← h, ha]; rfl
  · by_cases hb : b = 0
    · exfalso; apply key a ha; rw [h, hb]; rfl
    · simp only [decimal_chars, if_neg ha, if_neg hb] at h
      have hrev := map_digitChar_inj _ _
        (fun d hd => Nat.digits_lt_base (by decide) (List.mem_reverse.mp hd))
        (fun d hd => Nat.digits_lt_base (by decide) (List.mem_reverse.mp hd)) h
      exact Nat.digits_inj_iff.mp (List.reverse_injective hrev)

/-! ### Signature -/

theorem ite_append_data (b : Bool) (ss t : String) :
    (if b = true then ss ++ t else ss).data = ss.data ++ (if b = true then t.data else []) := by
  cases b <;> simp [String.data_append]

/-- The characters of a signature, token by token. -/
theorem signature_data (d : GemmProblemDescriptor) :
    (signature_for d).data =
      ['g', 'e', 'm', 'm', '_'] ++ ((transpose_A_marker d.transpose_A).data ++
        ((transpose_B_marker d.transpose_B).data ++
        ('M' :: (decimal_chars d.M ++ '_' :: 'N' :: (decimal_chars d.N ++ '_' :: 'K' ::
          (decimal_chars d.K ++ '_' ::
            ((if d.alpha_term then ['a', 'l', 'p', 'h', 'a', '_'] else []) ++
            ((if d.beta_term then ['b', 'e', 't', 'a', '_'] else []) ++
            ((precision_token d.accumulation_precision).data ++
            ('i' :: 'q' :: '_' :: (d.input_quantization_mode.data ++
              '_' :: 'o' :: 'q' :: '_' :: d.output_quantization_mode.data))))))))))) := by
  obtain ⟨tA, tB, M, N, K, al, be, pr, im, om⟩ := d
  have hA : (if tA = CblasNoTrans then "TA_" else "NTA_") = transpose_A_marker tA := by
    cases tA <;> rfl
  have hB : (if tB = CblasNoTrans then "TB_" else "NTB_") = transpose_B_marker tB := by
    cases tB <;> rfl
  simp only [signature_for, gemm_string_identifier, hA, hB]
  cases pr <;>
    simp only [ite_append_data, String.data_append, toString_data, precision_token,
      List.append_assoc, List.cons_append, List.nil_append]

/-- A separator that occurs in neither left part splits two equal lists the same way. -/
theorem append_sep_cancel (c : Char) : ∀ (l1 l2 r1 r2 : List Char), c ∉ l1 → c ∉ l2 →
    l1 ++ c :: r1 = l2 ++ c :: r2 → l1 = l2 ∧ r1 = r2 := by
  intro l1
  induction l1 with
  | nil =>
    intro l2 r1 r2 _ h2 h
    cases l2 with
    | nil => simpa using h
    | cons b l2 =>
      simp only [List.nil_append, List.cons_append, List.cons.injEq] at h
      exact absurd (h.1 ▸ List.mem_cons_self _ _) h2
  | cons a l1 ih =>
    intro l2 r1 r2 h1 h2 h
    cases l2 with
    | nil =>
      simp only [List.nil_append, List.cons_append, List.cons.injEq] at h
      exact absurd (h.1 ▸ List.mem_cons_self _ _) h1
    | cons b l2 =>
      simp only [List.cons_append, List.cons.injEq] at h
      have := ih l2 r1 r2 (fun hm => h1 (List.mem_cons_of_mem _ hm))
        (fun hm => h2 (List.mem_cons_of_mem _ hm)) h.2
      exact ⟨by rw [h.1, this.1], this.2⟩

theorem transpose_A_marker_split (a b : CBLAS_TRANSPOSE) (r1 r2 : List Char)
    (h : (transpose_A_marker a).data ++ r1 = (transpose_A_marker b).data ++ r2) :
    a = b ∧ r1 = r2 := by
  cases a <;> cases b <;> simp_all [transpose_A_marker]

theorem transpose_B_marker_split (a b : CBLAS_TRANSPOSE) (r1 r2 : List Char)
    (h : (transpose_B_marker a).data ++ r1 = (transpose_B_marker b).data ++ r2) :
    a = b ∧ r1 = r2 := by
  cases a <;> cases b <;> simp_all [transpose_B_marker]

theorem decimal_field_split (m n : Nat) (r1 r2 : List Char)
    (h : decimal_chars m ++ '_' :: r1 = decimal_chars n ++ '_' :: r2) : m = n ∧ r1 = r2 := by
  have := append_sep_cancel '_' _ _ _ _ (underscore_not_mem_decimal m)
    (underscore_not_mem_decimal n) h
  exact ⟨decimal_chars_inj m n this.1, this.2⟩

set_option maxHeartbeats 1000000 in
theorem optional_tokens_split (a1 a2 b1 b2 : Bool) (p1 p2 : libdnnAccumulatePrecision_t)
    (r1 r2 : List Char)
    (h : (if a1 then ['a', 'l', 'p', 'h', 'a', '_'] else []) ++
          ((if b1 then ['b', 'e', 't', 'a', '_'] else []) ++
          ((precision_token p1).data ++ 'i' :: 'q' :: '_' :: r1)) =
        (if a2 then ['a', 'l', 'p', 'h', 'a', '_'] else []) ++
          ((if b2 then ['b', 'e', 't', 'a', '_'] else []) ++
          ((precision_token p2).data ++ 'i' :: 'q' :: '_' :: r2))) :
    a1 = a2 ∧ b1 = b2 ∧ p1 = p2 ∧ r1 = r2 := by
  cases a1 <;> cases a2 <;> cases b1 <;> cases b2 <;> cases p1 <;> cases p2 <;>
    simp_all [precision_token]

/-- Equal signatures decode to the same flags, sizes and precision, and to the same
quantizer part `<in>_oq_<out>`. -/
theorem signature_decode (d e : GemmProblemDescriptor) (h : signature_for d = signature_for e) :
    d.transpose_A = e.transpose_A ∧ d.transpose_B = e.transpose_B ∧ d.M = e.M ∧ d.N = e.N ∧
      d.K = e.K ∧ d.alpha_term = e.alpha_term ∧ d.beta_term = e.beta_term ∧
      d.accumulation_precision = e.accumulation_precision ∧
      d.input_quantization_mode.data ++ '_' :: 'o' :: 'q' :: '_' ::
          d.output_quantization_mode.data =
        e.input_quantization_mode.data ++ '_' :: 'o' :: 'q' :: '_' ::
          e.output_quantization_mode.data := by
  have h0 := congrArg String.data h
  rw [signature_data, signature_data] at h0
  have h1 := List.append_cancel_left h0
  obtain ⟨hA, h2⟩ := transpose_A_marker_split _ _ _ _ h1
  obtain ⟨hB, h3⟩ := transpose_B_marker_split _ _ _ _ h2
  obtain ⟨hM, h4⟩ := decimal_field_split _ _ _ _ (List.cons.inj h3).2
  obtain ⟨hN, h5⟩ := decimal_field_split _ _ _ _ (List.cons.inj h4).2
  obtain ⟨hK, h6⟩ := decimal_field_split _ _ _ _ (List.cons.inj h5).2
  obtain ⟨ha, hb, hp, h7⟩ := optional_tokens_split _ _ _ _ _ _ _ _ h6
  exact ⟨hA, hB, hM, hN, hK, ha, hb, hp, h7⟩

theorem descriptor_ext (d e : GemmProblemDescriptor)
    (hA : d.transpose_A = e.transpose_A) (hB : d.transpose_B = e.transpose_B) (hM : d.M = e.M)
    (hN : d.N = e.N) (hK : d.K = e.K) (ha : d.alpha_term = e.alpha_term)
    (hb : d.beta_term = e.beta_term)
    (hp : d.accumulation_precision = e.accumulation_precision)
    (hi : d.input_quantization_mode = e.input_quantization_mode)
    (ho : d.output_quantization_mode = e.output_quantization_mode) : d = e := by
  cases d; cases e; simp_all

/-- C2: two descriptors that differ in exactly one of the ten fields have different
signatures, and equal descriptors have equal signatures. -/
theorem signature_sensitivity (d e : GemmProblemDescriptor) :
    (differing_fields d e = 1 → signature_for d ≠ signature_for e) ∧
      (d = e → signature_for d = signature_for e) := by
  refine ⟨?_, fun h => by rw [h]⟩
  intro hdiff hsig
  obtain ⟨hA, hB, hM, hN, hK, ha, hb, hp, hq⟩ := signature_decode d e hsig
  simp only [differing_fields, hA, hB, hM, hN, hK, ha, hb, hp, if_true] at hdiff
  by_cases hi : d.input_quantization_mode = e.input_quantization_mode
  · rw [hi] at hq
    have ho : d.output_quantization_mode = e.output_quantization_mode := by
      apply String.ext
      have := List.append_cancel_left hq
      simpa using this
    simp [hi, ho] at hdiff
  · by_cases ho : d.output_quantization_mode = e.output_quantization_mode
    · rw [ho] at hq
      have hq2 : d.input_quantization_mode.data ++
            ('_' :: 'o' :: 'q' :: '_' :: e.output_quantization_mode.data) =
          e.input_quantization_mode.data ++
            ('_' :: 'o' :: 'q' :: '_' :: e.output_quantization_mode.data) := hq
      exact hi (String.ext (List.append_cancel_right hq2))
    · simp [hi, ho] at hdiff

/-- C2 on a concrete pair: changing only `K` from 3 to 30 changes the signature. -/
theorem signature_sensitivity_witness :
    differing_fields
        ⟨CblasNoTrans, CblasTrans, 2, 5, 3, true, false, LIBDNN_ACCUMULATE_PREC_16, "a", "b"⟩
        ⟨CblasNoTrans, CblasTrans, 2, 5, 30, true, false, LIBDNN_ACCUMULATE_PREC_16, "a", "b"⟩
        = 1 ∧
      signature_for
          ⟨CblasNoTrans, CblasTrans, 2, 5, 3, true, false, LIBDNN_ACCUMULATE_PREC_16, "a", "b"⟩
        ≠ signature_for
          ⟨CblasNoTrans, CblasTrans, 2, 5, 30, true, false, LIBDNN_ACCUMULATE_PREC_16, "a", "b"⟩ :=
  ⟨by decide, (signature_sensitivity _ _).1 (by decide)⟩

/-- C3 as stated fails for arbitrary mode strings: the input mode `a_oq_b` with output mode
`c`, and the input mode `a` with output mode `b_oq_c`, share one signature. -/
theorem signature_collision :
    signature_for
        ⟨CblasNoTrans, CblasNoTrans, 1, 1, 1, false, false, LIBDNN_ACCUMULATE_PREC_NATIVE,
          "a_oq_b", "c"⟩
      = signature_for
        ⟨CblasNoTrans, CblasNoTrans, 1, 1, 1, false, false, LIBDNN_ACCUMULATE_PREC_NATIVE,
          "a", "b_oq_c"⟩ ∧
    signature_for
        ⟨CblasNoTrans, CblasNoTrans, 1, 1, 1, false, false, LIBDNN_ACCUMULATE_PREC_NATIVE,
          "a", "b_oq_c"⟩ = "gemm_TA_TB_M1_N1_K1_iq_a_oq_b_oq_c" ∧
    ("a_oq_b" : String) ≠ "a" ∧ ("c" : String) ≠ "b_oq_c" := by
  decide

/-- C3 (amended): descriptors with equal signatures agree on both transpose flags, `M`, `N`,
`K`, alpha-term and beta-term presence and the precision, and their quantizer parts
`<in>_oq_<out>` are the same string; they are field-by-field equal when moreover neither input
mode contains an underscore, or the two input modes (or the two output modes) have the same
length. -/
theorem signature_injective (d e : GemmProblemDescriptor)
    (h : signature_for d = signature_for e) :
    d.transpose_A = e.transpose_A ∧ d.transpose_B = e.transpose_B ∧ d.M = e.M ∧ d.N = e.N ∧
      d.K = e.K ∧ d.alpha_term = e.alpha_term ∧ d.beta_term = e.beta_term ∧
      d.accumulation_precision = e.accumulation_precision ∧
      d.input_quantization_mode ++ "_oq_" ++ d.output_quantization_mode =
        e.input_quantization_mode ++ "_oq_" ++ e.output_quantization_mode ∧
      ((('_' ∉ d.input_quantization_mode.data ∧ '_' ∉ e.input_quantization_mode.data) ∨
          d.input_quantization_mode.length = e.input_quantization_mode.length ∨
          d.output_quantization_mode.length = e.output_quantization_mode.length) → d = e) := by
  obtain ⟨hA, hB, hM, hN, hK, ha, hb, hp, hq⟩ := signature_decode d e h
  refine ⟨hA, hB, hM, hN, hK, ha, hb, hp, ?_, ?_⟩
  · apply String.ext
    simp only [String.data_append, List.append_assoc]
    exact hq
  · intro hcond
    have hio : d.input_quantization_mode.data = e.input_quantization_mode.data ∧
        d.output_quantization_mode.data = e.output_quantization_mode.data := by
      rcases hcond with ⟨h1, h2⟩ | hlen | hlen
      · have := append_sep_cancel '_' _ _ _ _ h1 h2 hq
        exact ⟨this.1, by simpa using this.2⟩
      · have := List.append_inj hq hlen
        exact ⟨this.1, by simpa using this.2⟩
      · have hq2 : d.input_quantization_mode.data ++ ['_', 'o', 'q', '_'] ++
              d.output_quantization_mode.data =
            e.input_quantization_mode.data ++ ['_', 'o', 'q', '_'] ++
              e.output_quantization_mode.data := by
          simpa using hq
        have := List.append_inj' hq2 hlen
        exact ⟨List.append_cancel_right this.1, this.2⟩
    exact descriptor_ext d e hA hB hM hN hK ha hb hp (String.ext hio.1) (String.ext hio.2)

/-- C3 (amended) on the colliding pair: the two descriptors share a signature, so they agree
on everything but the split of the quantizer part. -/
theorem signature_injective_witness :
    (⟨CblasNoTrans, CblasNoTrans, 1, 1, 1, false, false, LIBDNN_ACCUMULATE_PREC_NATIVE,
        "a_oq_b", "c"⟩ : GemmProblemDescriptor).M =
      (⟨CblasNoTrans, CblasNoTrans, 1, 1, 1, false, false, LIBDNN_ACCUMULATE_PREC_NATIVE,
        "a", "b_oq_c"⟩ : GemmProblemDescriptor).M ∧
    ("a_oq_b" : String) ++ "_oq_" ++ "c" = "a" ++ "_oq_" ++ "b_oq_c" :=
  have h := signature_injective
    ⟨CblasNoTrans, CblasNoTrans, 1, 1, 1, false, false, LIBDNN_ACCUMULATE_PREC_NATIVE,
      "a_oq_b", "c"⟩
    ⟨CblasNoTrans, CblasNoTrans, 1, 1, 1, false, false, LIBDNN_ACCUMULATE_PREC_NATIVE,
      "a", "b_oq_c"⟩ (by decide)
  ⟨h.2.2.1, h.2.2.2.2.2.2.2.2.1⟩

/-- C4: the signature is exactly the concatenation, in order, of `gemm_`, the transpose-A
marker, the transpose-B marker, `M<M>_`, `N<N>_`, `K<K>_`, `alpha_` iff the alpha term is
present, `beta_` iff the beta term is present, a precision token iff the precision is not
native, the input quantizer token and the output quantizer token, with nothing after it; the
four precision tokens are distinct and non-empty. -/
theorem signature_has_layout (d : GemmProblemDescriptor) :
    signature_for d = signature_layout d ∧
      ([LIBDNN_ACCUMULATE_PREC_8, LIBDNN_ACCUMULATE_PREC_16, LIBDNN_ACCUMULATE_PREC_32,
        LIBDNN_ACCUMULATE_PREC_64].map precision_token).Nodup ∧
      "" ∉ [LIBDNN_ACCUMULATE_PREC_8, LIBDNN_ACCUMULATE_PREC_16, LIBDNN_ACCUMULATE_PREC_32,
        LIBDNN_ACCUMULATE_PREC_64].map precision_token := by
  refine ⟨?_, by decide, by decide⟩
  apply String.ext
  rw [signature_data]
  obtain ⟨tA, tB, M, N, K, al, be, pr, im, om⟩ := d
  cases pr <;> cases al <;> cases be <;>
    simp [signature_layout, String.join, input_quantizer_token, output_quantizer_token,
      precision_token, String.data_append, toString_data]

/-! ### Dispatcher: cache readiness -/

/-- The only place where `gemm` touches `program_ready_` is the lookup: the flags after a call
are the flags `get_id` left. -/
theorem gemm_program_ready (w : Nat) (dev : Device) (c : GemmCall) (s : BlasState) :
    (gemm w dev c s).program_ready_ =
      (get_id (gemm_string_identifier c.trans_A c.trans_B c.M c.N c.K (c.alpha != 1)
        (c.beta != 0) c.prec c.in_quantizer c.out_quantizer) s).2.program_ready_ := by
  simp only [gemm]
  split_ifs <;> rfl

/-- C5 on a fresh engine, two identical requests in sequence: the cache entry is still
unready after the first call and after the second, and the tuner was initialised twice, the
source generated twice and the program compiled twice. -/
theorem gemm_compiles_twice :
    (gemm 32 example_device example_call BlasState.empty).program_ready_ = [false] ∧
    (gemm 32 example_device example_call
      (gemm 32 example_device example_call BlasState.empty)).program_ready_ = [false] ∧
    (gemm 32 example_device example_call
      (gemm 32 example_device example_call BlasState.empty)).trace.count
        (Event.tuner_initialized 0) = 2 ∧
    (gemm 32 example_device example_call
      (gemm 32 example_device example_call BlasState.empty)).trace.count
        (Event.source_generated 0 true false false false) = 2 ∧
    (gemm 32 example_device example_call
      (gemm 32 example_device example_call BlasState.empty)).trace.count
        (Event.Compile (ProgramRef.cached 0)) = 2 ∧
    ((gemm 32 example_device example_call
      (gemm 32 example_device example_call BlasState.empty)).programs_.map
        DeviceProgram.compile_count) = [2] := by
  decide

/-! ### Generated kernel: tile loads and store -/

/-- The load and store statements of the model print as the text the source writes. -/
theorem load_render (get_param : String → Int) (trans_A trans_B : Bool) (M N K : Nat)
    (alpha_term beta_term : Bool) (prec : libdnnAccumulatePrecision_t) :
    (generate_gemm_source get_param trans_A trans_B M N K alpha_term beta_term
        prec).load_A.render = emitted_load_A trans_A ∧
    (generate_gemm_source get_param trans_A trans_B M N K alpha_term beta_term
        prec).load_B.render = emitted_load_B trans_B := by
  cases trans_A <;> cases trans_B <;> exact ⟨rfl, rfl⟩

theorem store_render (get_param : String → Int) (trans_A trans_B : Bool) (M N K : Nat)
    (alpha_term beta_term : Bool) (prec : libdnnAccumulatePrecision_t) :
    (generate_gemm_source get_param trans_A trans_B M N K alpha_term beta_term
        prec).store_C.render =
      emitted_store_C prec (generate_gemm_source get_param trans_A trans_B M N K alpha_term
        beta_term prec).accreg_type := by
  cases prec <;> rfl

/-- For every request, the index read by the A-tile load and by the B-tile load of the
kernel `gemm` generates.  The A load is column-major exactly when `trans_A` is
`CblasNoTrans`; the B load is row-major exactly when `trans_B` is `CblasNoTrans`. -/
theorem gemm_tile_load_index (tuner : LibDNNTuner) (c : GemmCall)
    (offM offN row col tiledIndex globalRow globalCol : Nat) :
    (gemm_generated_source tuner c).load_A.index.eval
        (kernel_env c.M c.N c.K offM offN row col tiledIndex globalRow globalCol) =
      (if c.trans_A = CblasNoTrans then (offM + row) + tiledIndex * c.M
        else (offM + row) * c.K + tiledIndex) ∧
    (gemm_generated_source tuner c).load_B.index.eval
        (kernel_env c.M c.N c.K offM offN row col tiledIndex globalRow globalCol) =
      (if c.trans_B = CblasNoTrans then (offN + col) + tiledIndex * c.N
        else (offN + col) * c.K + tiledIndex) := by
  obtain ⟨tA, tB, M, N, K, al, be, pr, iq, oq⟩ := c
  cases tA <;> cases tB <;>
    simp [gemm_generated_source, generate_gemm_source, KExp.eval, kernel_env]

/-- C6 at the request `gemm(CblasNoTrans, CblasNoTrans, M = 2, N = 2, K = 3, ...)`: the
emitted A-tile load is the column-major one, `Aptr[(offM + row) + tiledIndex * M]`; for row 0
and `tiledIndex` 1 it reads index 2, where element (0, 1) of a row-major 2-by-3 matrix is at
index 1.  The B-tile load of the same kernel is the row-major one. -/
theorem gemm_load_A_polarity :
    (gemm_generated_source (initialize_gemm_tuner example_device ⟨[], []⟩)
        example_call).load_A.render = emitted_load_A true ∧
    (gemm_generated_source (initialize_gemm_tuner example_device ⟨[], []⟩)
        example_call).load_A.index.eval (kernel_env 2 2 3 0 0 0 0 1 0 0) = 2 ∧
    (0 + 0) * 3 + 1 = 1 ∧
    (gemm_generated_source (initialize_gemm_tuner example_device ⟨[], []⟩)
        example_call).load_B.render = emitted_load_B false ∧
    (gemm_generated_source (initialize_gemm_tuner example_device ⟨[], []⟩)
        example_call).load_B.index.eval (kernel_env 2 2 3 0 0 0 1 2 0 0) = (0 + 1) + 2 * 2 := by
  decide

theorem row_major_bound (r c R C : Nat) (hr : r < R) (hc : c < C) : r * C + c < R * C :=
  calc r * C + c < r * C + C := Nat.add_lt_add_left hc _
    _ = (r + 1) * C := (Nat.succ_mul r C).symm
    _ ≤ R * C := Nat.mul_le_mul_right C hr

theorem col_major_bound (r c R C : Nat) (hr : r < R) (hc : c < C) : r + c * R < R * C := by
  have h := row_major_bound c r C R hc hr
  rw [Nat.mul_comm R C]
  omega

/-- C7: in the kernel generated for any flags, sizes and configuration, and for any values
of the offsets, local row/col values and tile step: each guard is the stated condition; when
the A-load guard holds the index read is below `M * K`, when the B-load guard holds the index
read is below `K * N`, when the store guard holds the index written is below `M * N`; and when
a load guard fails the tile element is set to zero and nothing is read. -/
theorem tile_guards_in_range (get_param : String → Int) (trans_A trans_B : Bool)
    (M N K : Nat) (alpha_term beta_term : Bool) (prec : libdnnAccumulatePrecision_t)
    (offM offN row col tiledIndex globalRow globalCol : Nat) (mem : Nat → Int) :
    let src := generate_gemm_source get_param trans_A trans_B M N K alpha_term beta_term prec
    let env := kernel_env M N K offM offN row col tiledIndex globalRow globalCol
    (src.load_A.guard.eval env = decide (offM + row < M ∧ tiledIndex < K)) ∧
    (∀ i ∈ (src.load_A.run env mem).2, i < M * K) ∧
    (src.load_A.guard.eval env = false → src.load_A.run env mem = (0, [])) ∧
    (src.load_B.guard.eval env = decide (offN + col < N ∧ tiledIndex < K)) ∧
    (∀ i ∈ (src.load_B.run env mem).2, i < K * N) ∧
    (src.load_B.guard.eval env = false → src.load_B.run env mem = (0, [])) ∧
    (src.store_C.guard.eval env = decide (globalRow < M ∧ globalCol < N)) ∧
    (∀ i ∈ src.store_C.run env, i < M * N) := by
  intro src env
  have gA : src.load_A.guard.eval env = decide (offM + row < M ∧ tiledIndex < K) := by
    simp [src, env, generate_gemm_source, KCond.eval, KExp.eval, kernel_env]
  have gB : src.load_B.guard.eval env = decide (offN + col < N ∧ tiledIndex < K) := by
    simp [src, env, generate_gemm_source, KCond.eval, KExp.eval, kernel_env]
  have gC : src.store_C.guard.eval env = decide (globalRow < M ∧ globalCol < N) := by
    simp [src, env, generate_gemm_source, KCond.eval, KExp.eval, kernel_env]
  have iA : src.load_A.index.eval env =
      if trans_A then (offM + row) + tiledIndex * M else (offM + row) * K + tiledIndex := by
    cases trans_A <;> simp [src, env, generate_gemm_source, KExp.eval, kernel_env]
  have iB : src.load_B.index.eval env =
      if trans_B then (offN + col) * K + tiledIndex else (offN + col) + tiledIndex * N := by
    cases trans_B <;> simp [src, env, generate_gemm_source, KExp.eval, kernel_env]
  have iC : src.store_C.index.eval env = globalRow * N + globalCol := by
    simp [src, env, generate_gemm_source, KExp.eval, kernel_env]
  refine ⟨gA, ?_, ?_, gB, ?_, ?_, gC, ?_⟩
  · intro i hi
    simp only [GuardedLoad.run, gA, iA] at hi
    split_ifs at hi with hg ht <;> try replace hg := of_decide_eq_true hg
    · simp only [List.mem_singleton] at hi
      rw [hi]; exact col_major_bound _ _ _ _ hg.1 hg.2
    · simp only [List.mem_singleton] at hi
      rw [hi]; exact row_major_bound _ _ _ _ hg.1 hg.2
    · simp at hi
  · intro hg
    simp [GuardedLoad.run, hg]
  · intro i hi
    simp only [GuardedLoad.run, gB, iB] at hi
    split_ifs at hi with hg ht <;> try replace hg := of_decide_eq_true hg
    · simp only [List.mem_singleton] at hi
      rw [hi, Nat.mul_comm K N]; exact row_major_bound _ _ _ _ hg.1 hg.2
    · simp only [List.mem_singleton] at hi
      rw [hi, Nat.mul_comm K N]; exact col_major_bound _ _ _ _ hg.1 hg.2
    · simp at hi
  · intro hg
    simp [GuardedLoad.run, hg]
  · intro i hi
    simp only [GuardedStore.run, gC, iC] at hi
    split_ifs at hi with hg <;> try replace hg := of_decide_eq_true hg
    · simp only [List.mem_singleton] at hi
      rw [hi]; exact row_major_bound _ _ _ _ hg.1 hg.2
    · simp at hi

/-- C7 at `M = 130`, `K = 8` with `TSM = 128`: in the second row block (`offM = 128`) row 1
is global row 129 and is read in range, row 2 is global row 130 and is zero-filled without a
read. -/
theorem tile_guards_in_range_witness :
    (∀ i ∈ ((generate_gemm_source asymmetric_config false false 130 8 8 false false
        LIBDNN_ACCUMULATE_PREC_NATIVE).load_A.run
        (kernel_env 130 8 8 128 0 1 0 0 0 0) (fun i => (i : Int))).2, i < 130 * 8) ∧
    (generate_gemm_source asymmetric_config false false 130 8 8 false false
        LIBDNN_ACCUMULATE_PREC_NATIVE).load_A.run
        (kernel_env 130 8 8 128 0 1 0 0 0 0) (fun i => (i : Int)) = (1032, [1032]) ∧
    (generate_gemm_source asymmetric_config false false 130 8 8 false false
        LIBDNN_ACCUMULATE_PREC_NATIVE).load_A.run
        (kernel_env 130 8 8 128 0 2 0 0 0 0) (fun i => (i : Int)) = (0, []) :=
  ⟨(tile_guards_in_range asymmetric_config false false 130 8 8 false false
      LIBDNN_ACCUMULATE_PREC_NATIVE 128 0 1 0 0 0 0 (fun i => (i : Int))).2.1,
    by decide,
    (tile_guards_in_range asymmetric_config false false 130 8 8 false false
      LIBDNN_ACCUMULATE_PREC_NATIVE 128 0 2 0 0 0 0 (fun i => (i : Int))).2.2.1 (by decide)⟩

/-! ### Per-thread load counts -/

/-- For positive work-group extents the count `LPTA` is exact precisely when
`workgroup_size_0` divides `WPTM * TSK`, and `LPTB` precisely when `workgroup_size_1` divides
`WPTN * TSK`. -/
theorem load_counts_exact_iff (cfg : String → Int) (trans_A trans_B : Bool) (M N K : Nat)
    (alpha_term beta_term : Bool) (prec : libdnnAccumulatePrecision_t)
    (h0 : 0 < cfg "workgroup_size_0") (h1 : 0 < cfg "workgroup_size_1") :
    ((generate_gemm_source cfg trans_A trans_B M N K alpha_term beta_term prec).lpta *
        cfg "workgroup_size_0" * cfg "workgroup_size_1" =
      (generate_gemm_source cfg trans_A trans_B M N K alpha_term beta_term prec).tsm * cfg "TSK"
      ↔ cfg "workgroup_size_0" ∣ cfg "WPTM" * cfg "TSK") ∧
    ((generate_gemm_source cfg trans_A trans_B M N K alpha_term beta_term prec).lptb *
        cfg "workgroup_size_0" * cfg "workgroup_size_1" =
      (generate_gemm_source cfg trans_A trans_B M N K alpha_term beta_term prec).tsn * cfg "TSK"
      ↔ cfg "workgroup_size_1" ∣ cfg "WPTN" * cfg "TSK") := by
  simp only [generate_gemm_source]
  generalize cfg "workgroup_size_0" = n at *
  generalize cfg "workgroup_size_1" = m at *
  generalize cfg "WPTM" = a
  generalize cfg "WPTN" = b
  generalize cfg "TSK" = k
  constructor
  · constructor
    · intro h
      have hd : m * n ∣ a * m * k :=
        Dvd.intro (Int.tdiv (a * m * k) (m * n)) (by linear_combination h)
      have : m * n ∣ m * (a * k) := by rw [show m * (a * k) = a * m * k by ring]; exact hd
      exact (mul_dvd_mul_iff_left h1.ne').mp this
    · intro h
      have hd : m * n ∣ a * m * k := by
        rw [show a * m * k = m * (a * k) by ring]; exact mul_dvd_mul_left m h
      have := Int.tdiv_mul_cancel hd
      linear_combination this
  · constructor
    · intro h
      have hd : m * n ∣ b * n * k :=
        Dvd.intro (Int.tdiv (b * n * k) (m * n)) (by linear_combination h)
      have : n * m ∣ n * (b * k) := by
        rw [show n * (b * k) = b * n * k by ring, mul_comm n m]; exact hd
      exact (mul_dvd_mul_iff_left h0.ne').mp this
    · intro h
      have hd : m * n ∣ b * n * k := by
        rw [show b * n * k = n * (b * k) by ring, mul_comm m n]; exact mul_dvd_mul_left n h
      have := Int.tdiv_mul_cancel hd
      linear_combination this

/-- C8 at the configuration `workgroup_size_0 = 8`, `workgroup_size_1 = 4`, `TSK = 1`,
`TSK_UNROLL = 1`, `WPTM = 4`, `WPTN = 8`, `VWM = VWN = 4`: every value is in its declared
domain and all five registered constraints hold, yet `TSM * TSK = 16`, `LPTA = 16 / 32 = 0`
and `LPTA * workgroup_size_0 * workgroup_size_1 = 0`. -/
theorem lpta_not_exact :
    (initialize_gemm_tuner example_device ⟨[], []⟩).satisfied_by asymmetric_config ∧
    (initialize_gemm_tuner example_device ⟨[], []⟩).in_domain asymmetric_config ∧
    0 < asymmetric_config "workgroup_size_0" ∧ 0 < asymmetric_config "workgroup_size_1" ∧
    (generate_gemm_source asymmetric_config false false 2 2 3 false false
        LIBDNN_ACCUMULATE_PREC_NATIVE).tsm * asymmetric_config "TSK" = 16 ∧
    (generate_gemm_source asymmetric_config false false 2 2 3 false false
        LIBDNN_ACCUMULATE_PREC_NATIVE).lpta = 0 ∧
    (generate_gemm_source asymmetric_config false false 2 2 3 false false
        LIBDNN_ACCUMULATE_PREC_NATIVE).lpta *
          asymmetric_config "workgroup_size_0" * asymmetric_config "workgroup_size_1" ≠
      (generate_gemm_source asymmetric_config false false 2 2 3 false false
        LIBDNN_ACCUMULATE_PREC_NATIVE).tsm * asymmetric_config "TSK" := by
  decide

/-! ### Argument order -/

theorem bound_args_append (l m : List Event) :
    bound_args (l ++ m) = bound_args l ++ bound_args m := by
  induction l with
  | nil => rfl
  | cons e l ih => cases e <;> simp [bound_args, ih]

theorem get_id_trace (identifier : String) (s : BlasState) :
    (get_id identifier s).2.trace = s.trace := by
  unfold get_id
  split <;> rfl

/-- The parameter names of the kernel signature that `generate_gemm_source` emits. -/
theorem kernel_parameter_names (get_param : String → Int) (trans_A trans_B : Bool)
    (M N K : Nat) (alpha_term beta_term : Bool) (prec : libdnnAccumulatePrecision_t) :
    (generate_gemm_source get_param trans_A trans_B M N K alpha_term beta_term prec).args.map
        KernelArg.name =
      (if alpha_term then ["alpha"] else []) ++ ["A", "B"] ++
        (if beta_term then ["beta"] else []) ++ ["C"] := by
  cases alpha_term <;> cases beta_term <;> rfl

/-- C9: for every request and engine state, the arguments `gemm` binds are, position by
position, the parameters of the kernel signature generated for that request, namely
`alpha` if present, `A`, `B`, `beta` if present, `C`. -/
theorem gemm_binds_in_signature_order (w : Nat) (dev : Device) (c : GemmCall) (s : BlasState)
    (tuner : LibDNNTuner) :
    bound_args (gemm w dev c s).trace =
        bound_args s.trace ++ (gemm_generated_source tuner c).args.map KernelArg.name ∧
      (gemm_generated_source tuner c).args.map KernelArg.name =
        (if c.alpha != 1 then ["alpha"] else []) ++ ["A", "B"] ++
          (if c.beta != 0 then ["beta"] else []) ++ ["C"] := by
  have hnames := kernel_parameter_names tuner.get_param (decide (c.trans_A = CblasNoTrans))
    (decide (c.trans_B = CblasTrans)) c.M c.N c.K (c.alpha != 1) (c.beta != 0) c.prec
  refine ⟨?_, hnames⟩
  have hn : (gemm_generated_source tuner c).args.map KernelArg.name =
      (if c.alpha != 1 then ["alpha"] else []) ++ ["A", "B"] ++
        (if c.beta != 0 then ["beta"] else []) ++ ["C"] := hnames
  rw [hn]
  simp only [gemm]
  split_ifs <;> simp [bound_args_append, bound_args, get_id_trace]

/-- C9, the two scenarios of the specification on a fresh engine: with alpha present and
beta absent the bound arguments are `alpha, A, B, C`; with both present they are
`alpha, A, B, beta, C`. -/
theorem gemm_binds_in_signature_order_witness :
    bound_args (gemm 32 example_device { example_call with alpha := 2, beta := 0 }
        BlasState.empty).trace = ["alpha", "A", "B", "C"] ∧
    bound_args (gemm 32 example_device { example_call with alpha := 2, beta := 3 }
        BlasState.empty).trace = ["alpha", "A", "B", "beta", "C"] :=
  ⟨((gemm_binds_in_signature_order 32 example_device { example_call with alpha := 2, beta := 0 }
      BlasState.empty ⟨[], []⟩).1.trans (by decide)),
    ((gemm_binds_in_signature_order 32 example_device { example_call with alpha := 2, beta := 3 }
      BlasState.empty ⟨[], []⟩).1.trans (by decide))⟩

/-! ### The `vector_unroll` flag -/

/-- C10: on every device `initialize_gemm_tuner` makes exactly one declaration named
`vector_unroll`, with default `true`.  In the contract
`declare_boolean(name, default, is_fixed)` it is fixed on the CUDA backend and free to vary on
every other backend: on CUDA the only value of its domain is `true` (1), elsewhere both
`false` (0) and `true` (1) are.  The call passes `false` as third argument on CUDA and `true`
elsewhere. -/
theorem vector_unroll_declaration (dev : Device) :
    (initialize_gemm_tuner dev ⟨[], []⟩).params.filter (fun p => p.name == "vector_unroll") =
      [TunerParam.boolean_param "vector_unroll" true (decide (dev.backend ≠ BACKEND_CUDA))] ∧
    ((initialize_gemm_tuner dev ⟨[], []⟩).params.filter
        (fun p => p.name == "vector_unroll")).map TunerParam.as_declare_boolean =
      [some ("vector_unroll", true, decide (dev.backend = BACKEND_CUDA))] ∧
    (∀ p ∈ (initialize_gemm_tuner dev ⟨[], []⟩).params.filter
        (fun p => p.name == "vector_unroll"), ∀ v : Int,
      p.admits v = true ↔ if dev.backend = BACKEND_CUDA then v = 1 else (v = 0 ∨ v = 1)) ∧
    ((initialize_gemm_tuner example_cuda_device ⟨[], []⟩).params.filter
        (fun p => p.name == "vector_unroll")).map TunerParam.as_declare_boolean =
      [some ("vector_unroll", true, true)] ∧
    ((initialize_gemm_tuner example_device ⟨[], []⟩).params.filter
        (fun p => p.name == "vector_unroll")).map TunerParam.as_declare_boolean =
      [some ("vector_unroll", true, false)] := by
  have h1 : (initialize_gemm_tuner dev ⟨[], []⟩).params.filter
      (fun p => p.name == "vector_unroll") =
      [TunerParam.boolean_param "vector_unroll" true (decide (dev.backend ≠ BACKEND_CUDA))] := by
    obtain ⟨ws, b⟩ := dev
    cases b <;> rfl
  refine ⟨h1, ?_, ?_, by decide, by decide⟩
  · rw [h1]
    cases dev.backend <;> rfl
  · rw [h1]
    intro p hp v
    rw [List.mem_singleton] at hp
    subst hp
    cases dev.backend <;> simp [TunerParam.admits]

/-! ### Parameter space: constraints and defaults -/

/-- The parameters declared by `initialize_gemm_tuner`, in order. -/
theorem initialize_gemm_tuner_params (dev : Device) :
    (initialize_gemm_tuner dev ⟨[], []⟩).params =
      [ .set_param "workgroup_size_0" 16 (workgroup_sizes (dev.workgroup_size 0)),
        .set_param "workgroup_size_1" 16 (workgroup_sizes (dev.workgroup_size 1)),
        .range_param "TSK" 8 1 32 1,
        .range_param "TSK_UNROLL" 1 1 16 1,
        .range_param "WPTM" 4 4 16 4,
        .set_param "VWM" 4 [1, 2, 4, 8, 16],
        .range_param "WPTN" 4 4 16 4,
        .set_param "VWN" 4 [1, 2, 4, 8, 16],
        .range_param "lmem_pad_A" 0 0 8 1,
        .range_param "lmem_pad_B" 0 0 8 1,
        .boolean_param "vector_unroll" true (decide (dev.backend ≠ BACKEND_CUDA)) ] := by
  obtain ⟨ws, b⟩ := dev
  cases b <;> rfl

/-- The five constraints registered by `initialize_gemm_tuner`, in order. -/
theorem initialize_gemm_tuner_constraints (dev : Device) :
    (initialize_gemm_tuner dev ⟨[], []⟩).constraints =
      [ ⟨["TSK", "WPTM", "workgroup_size_1"], ["TSK"], constraint_product_divisible⟩,
        ⟨["TSK", "WPTN", "workgroup_size_0"], ["TSK"], constraint_product_divisible⟩,
        ⟨["TSK", "TSK_UNROLL"], ["TSK_UNROLL"], constraint_divisible⟩,
        ⟨["WPTM", "VWM"], ["WPTM"], constraint_divisible⟩,
        ⟨["WPTN", "VWN"], ["WPTN"], constraint_divisible⟩ ] := by
  obtain ⟨ws, b⟩ := dev
  cases b <;> rfl

theorem constraint_divisible_iff (a b : Int) (hb : b ≠ 0) :
    constraint_divisible [a, b] = some true ↔ b ∣ a := by
  simp [constraint_divisible, hb, Int.dvd_iff_tmod_eq_zero]

theorem constraint_product_divisible_iff (a b c : Int) (hc : c ≠ 0) :
    constraint_product_divisible [a, b, c] = some true ↔ c ∣ a * b := by
  simp [constraint_product_divisible, hc, Int.dvd_iff_tmod_eq_zero]

/-- C11: for every assignment with non-zero divisors, the five constraints registered by
`initialize_gemm_tuner` hold together exactly when `TSK_UNROLL` divides `TSK`, `VWM` divides
`WPTM`, `VWN` divides `WPTN`, `workgroup_size_1` divides `TSK * WPTM` and `workgroup_size_0`
divides `TSK * WPTN`. -/
theorem constraints_iff_divisibility (dev : Device) (cfg : String → Int)
    (h1 : cfg "workgroup_size_1" ≠ 0) (h0 : cfg "workgroup_size_0" ≠ 0)
    (hu : cfg "TSK_UNROLL" ≠ 0) (hm : cfg "VWM" ≠ 0) (hn : cfg "VWN" ≠ 0) :
    (initialize_gemm_tuner dev ⟨[], []⟩).constraints.length = 5 ∧
    ((initialize_gemm_tuner dev ⟨[], []⟩).satisfied_by cfg ↔
      cfg "TSK_UNROLL" ∣ cfg "TSK" ∧ cfg "VWM" ∣ cfg "WPTM" ∧ cfg "VWN" ∣ cfg "WPTN" ∧
      cfg "workgroup_size_1" ∣ cfg "TSK" * cfg "WPTM" ∧
      cfg "workgroup_size_0" ∣ cfg "TSK" * cfg "WPTN") := by
  rw [LibDNNTuner.satisfied_by, initialize_gemm_tuner_constraints]
  refine ⟨rfl, ?_⟩
  simp only [List.forall_mem_cons, List.not_mem_nil, false_implies, forall_const, and_true,
    TunerConstraint.holds, List.map_cons, List.map_nil,
    constraint_divisible_iff _ _ hu, constraint_divisible_iff _ _ hm,
    constraint_divisible_iff _ _ hn, constraint_product_divisible_iff _ _ _ h1,
    constraint_product_divisible_iff _ _ _ h0]
  tauto

/-- C11 on the configuration with unequal work-group extents. -/
theorem constraints_iff_divisibility_witness :
    (initialize_gemm_tuner example_device ⟨[], []⟩).satisfied_by asymmetric_config ↔
      asymmetric_config "TSK_UNROLL" ∣ asymmetric_config "TSK" ∧
      asymmetric_config "VWM" ∣ asymmetric_config "WPTM" ∧
      asymmetric_config "VWN" ∣ asymmetric_config "WPTN" ∧
      asymmetric_config "workgroup_size_1" ∣ asymmetric_config "TSK" * asymmetric_config "WPTM" ∧
      asymmetric_config "workgroup_size_0" ∣ asymmetric_config "TSK" * asymmetric_config "WPTN" :=
  (constraints_iff_divisibility example_device asymmetric_config (by decide) (by decide)
    (by decide) (by decide) (by decide)).2

/-- C14: on every device the defaults of a freshly initialised tuner are
`workgroup_size_0 = workgroup_size_1 = 16`, `TSK = 8`, `TSK_UNROLL = 1`, `WPTM = WPTN = 4`,
`VWM = VWN = 4`, `lmem_pad_A = lmem_pad_B = 0`, these are the values `get_param` returns, and
they satisfy every registered constraint. -/
theorem default_configuration_valid (dev : Device) :
    (initialize_gemm_tuner dev ⟨[], []⟩).satisfied_by
        (initialize_gemm_tuner dev ⟨[], []⟩).get_param ∧
    ["workgroup_size_0", "workgroup_size_1", "TSK", "TSK_UNROLL", "WPTM", "WPTN", "VWM", "VWN",
        "lmem_pad_A", "lmem_pad_B"].map (initialize_gemm_tuner dev ⟨[], []⟩).get_param =
      [16, 16, 8, 1, 4, 4, 4, 4, 0, 0] := by
  have hv : ["workgroup_size_0", "workgroup_size_1", "TSK", "TSK_UNROLL", "WPTM", "WPTN", "VWM",
        "VWN", "lmem_pad_A", "lmem_pad_B"].map (initialize_gemm_tuner dev ⟨[], []⟩).get_param =
      [16, 16, 8, 1, 4, 4, 4, 4, 0, 0] := by
    simp [LibDNNTuner.get_param, initialize_gemm_tuner_params, List.find?, TunerParam.name,
      TunerParam.default_value]
  refine ⟨?_, hv⟩
  simp only [List.map_cons, List.map_nil, List.cons.injEq, and_true] at hv
  obtain ⟨h0, h1, hk, hu, hm, hn, hvm, hvn, -, -⟩ := hv
  rw [LibDNNTuner.satisfied_by, initialize_gemm_tuner_constraints]
  simp only [List.forall_mem_cons, List.not_mem_nil, false_implies, forall_const, and_true,
    TunerConstraint.holds, List.map_cons, List.map_nil, h0, h1, hk, hu, hm, hn, hvm, hvn]
  refine ⟨by decide, by decide, by decide, by decide, by decide, ?_⟩
  intro _; trivial

/-- The candidate loop, run with enough fuel, collects exactly the values `i, i + 4, ...`
below the limit. -/
theorem workgroup_sizes_loop_mem (limit : Nat) : ∀ (fuel i : Nat) (acc : List Int),
    limit ≤ i + 4 * fuel → ∀ v : Int, v ∈ workgroup_sizes_loop limit fuel i acc ↔
      v ∈ acc ∨ ∃ k : Nat, v = ((i + 4 * k : Nat) : Int) ∧ i + 4 * k < limit := by
  intro fuel
  induction fuel with
  | zero =>
    intro i acc h v
    simp only [workgroup_sizes_loop]
    constructor
    · exact fun hv => Or.inl hv
    · rintro (hv | ⟨k, _, hk⟩)
      · exact hv
      · omega
  | succ f ih =>
    intro i acc h v
    simp only [workgroup_sizes_loop]
    split_ifs with hi
    · rw [ih (i + 4) (acc ++ [(i : Int)]) (by omega) v]
      constructor
      · rintro (hv | ⟨k, hk, hlt⟩)
        · rcases List.mem_append.mp hv with hv | hv
          · exact Or.inl hv
          · refine Or.inr ⟨0, ?_, by omega⟩
            simpa using hv
        · exact Or.inr ⟨k + 1, by rw [hk]; congr 1; omega, by omega⟩
      · rintro (hv | ⟨k, hk, hlt⟩)
        · exact Or.inl (List.mem_append.mpr (Or.inl hv))
        · cases k with
          | zero => exact Or.inl (List.mem_append.mpr (Or.inr (by simpa using hk)))
          | succ k => exact Or.inr ⟨k, by rw [hk]; congr 1; omega, by omega⟩
    · constructor
      · exact fun hv => Or.inl hv
      · rintro (hv | ⟨k, _, hk⟩)
        · exact hv
        · omega

/-- The candidate set of a work-group dimension: the multiples of 4 from 0 up to, but not
including, the device limit. -/
theorem mem_workgroup_sizes (limit : Nat) (v : Int) :
    v ∈ workgroup_sizes limit ↔ ∃ k : Nat, v = ((4 * k : Nat) : Int) ∧ 4 * k < limit := by
  unfold workgroup_sizes
  rw [workgroup_sizes_loop_mem limit limit 0 [] (by omega) v]
  simp

theorem sixteen_mem_workgroup_sizes (limit : Nat) :
    (16 : Int) ∈ workgroup_sizes limit ↔ 16 < limit := by
  rw [mem_workgroup_sizes]
  constructor
  · rintro ⟨k, hk, hlt⟩
    have : 4 * k = 16 := by exact_mod_cast hk.symm
    omega
  · intro h
    exact ⟨4, by norm_num, by omega⟩

/-- C12 (amended): the defaults of all parameters declared by `initialize_gemm_tuner` lie in
their declared domains exactly on the devices whose maximum work-group size exceeds 16 in
dimensions 0 and 1; the defaults of `TSK`, `TSK_UNROLL`, `WPTM`, `WPTN`, `VWM`, `VWN`,
`lmem_pad_A` and `lmem_pad_B` lie in their domains on every device. -/
theorem defaults_in_domain (dev : Device) :
    ((∀ p ∈ (initialize_gemm_tuner dev ⟨[], []⟩).params, p.admits p.default_value = true) ↔
      16 < dev.workgroup_size 0 ∧ 16 < dev.workgroup_size 1) ∧
    (∀ p ∈ (initialize_gemm_tuner dev ⟨[], []⟩).params,
      p.name ≠ "workgroup_size_0" → p.name ≠ "workgroup_size_1" →
        p.admits p.default_value = true) := by
  rw [initialize_gemm_tuner_params]
  have hb : TunerParam.admits (.boolean_param "vector_unroll" true
      (decide (dev.backend ≠ BACKEND_CUDA))) 1 = true := by
    cases dev.backend <;> decide
  constructor
  · simp only [List.forall_mem_cons, List.not_mem_nil, false_implies, forall_const, and_true,
      TunerParam.default_value, if_true]
    rw [← sixteen_mem_workgroup_sizes, ← sixteen_mem_workgroup_sizes]
    constructor
    · intro h
      exact ⟨by simpa [TunerParam.admits] using h.1, by simpa [TunerParam.admits] using h.2.1⟩
    · intro h
      refine ⟨by simpa [TunerParam.admits] using h.1, by simpa [TunerParam.admits] using h.2,
        by decide, by decide, by decide, by decide, by decide, by decide, by decide, by decide,
        hb, ?_⟩
      intro _; trivial
  · simp only [List.forall_mem_cons, List.not_mem_nil, false_implies, forall_const, and_true,
      TunerParam.default_value, TunerParam.name, if_true]
    refine ⟨fun h => absurd rfl h, fun _ h => absurd rfl h, fun _ _ => by decide,
      fun _ _ => by decide, fun _ _ => by decide, fun _ _ => by decide, fun _ _ => by decide,
      fun _ _ => by decide, fun _ _ => by decide, fun _ _ => by decide, fun _ _ => hb, ?_⟩
    intro _; trivial

/-- C12 as stated fails on a device whose maximum work-group size is 16: the candidate set is
`0, 4, 8, 12` and the default 16 is not in it. -/
theorem default_outside_candidates :
    workgroup_sizes (small_device.workgroup_size 0) = [0, 4, 8, 12] ∧
    (16 : Int) ∉ workgroup_sizes (small_device.workgroup_size 0) ∧
    ¬ (∀ p ∈ (initialize_gemm_tuner small_device ⟨[], []⟩).params,
        p.admits p.default_value = true) := by
  decide

/-- On every device with at least one work-item per dimension, 0 is a candidate work-group
extent. -/
theorem zero_mem_workgroup_sizes (limit : Nat) (h : 0 < limit) :
    (0 : Int) ∈ workgroup_sizes limit :=
  (mem_workgroup_sizes limit 0).mpr ⟨0, rfl, h⟩

/-- C15 on the assignment that takes the candidate 0 for `workgroup_size_1` and the default
everywhere else: every value is in its declared domain, and the first registered constraint,
`(TSK * WPTM) % workgroup_size_1 == 0`, takes a remainder by zero. -/
theorem constraint_remainder_by_zero :
    (initialize_gemm_tuner example_device ⟨[], []⟩).in_domain zero_extent_config ∧
    ((initialize_gemm_tuner example_device ⟨[], []⟩).constraints.map
        (fun c => c.func (c.con_params.map zero_extent_config))) =
      [none, some true, some true, some true, some true] := by
  decide

/-! ### Dispatcher: the kernel that is launched -/

theorem kernel_sources_append (l m : List Event) :
    kernel_sources (l ++ m) = kernel_sources l ++ kernel_sources m := by
  induction l with
  | nil => rfl
  | cons e l ih => cases e <;> simp [kernel_sources, ih]

/-- C13: in every call, whatever the state and the request, `gemm` asks exactly one program
for the kernel, and it is the program of the engine (`this->program_`), not the cache slot
`programs_[id]`.  On a fresh engine the program that was compiled is the cache slot 0 and the
program asked for the kernel is the engine program. -/
theorem gemm_kernel_source (w : Nat) (dev : Device) (c : GemmCall) (s : BlasState) :
    kernel_sources (gemm w dev c s).trace =
        kernel_sources s.trace ++ [ProgramRef.engine_program] ∧
    compiled_programs (gemm 32 example_device example_call BlasState.empty).trace =
        [ProgramRef.cached 0] ∧
    kernel_sources (gemm 32 example_device example_call BlasState.empty).trace =
        [ProgramRef.engine_program] := by
  refine ⟨?_, by decide, by decide⟩
  simp only [gemm]
  split_ifs <;> simp [kernel_sources_append, kernel_sources, get_id_trace]

/-! ### Store phase: every output element once -/

/-- A position below `G` tiles of `W * R` rows splits as tile, thread and register index. -/
theorem tile_split_unique (W R g t q r : Nat) (ht : t < R) (hq : q < W)
    (h : W * R * g + t + q * R = r) :
    g = r / (W * R) ∧ q = r % (W * R) / R ∧ t = r % R := by
  have hR : 0 < R := Nat.lt_of_le_of_lt (Nat.zero_le _) ht
  have hlt : q * R + t < W * R := row_major_bound q t W R hq ht
  have hr : r = (q * R + t) + W * R * g := by omega
  have hdiv : r / (W * R) = g := by
    rw [hr, Nat.add_mul_div_left _ _ (Nat.lt_of_le_of_lt (Nat.zero_le _) hlt),
      Nat.div_eq_of_lt hlt, Nat.zero_add]
  have hmod : r % (W * R) = q * R + t := by
    rw [hr, Nat.add_mul_mod_self_left, Nat.mod_eq_of_lt hlt]
  refine ⟨hdiv.symm, ?_, ?_⟩
  · rw [hmod, Nat.add_comm, Nat.add_mul_div_right _ _ hR, Nat.div_eq_of_lt ht, Nat.zero_add]
  · have hr2 : r = t + R * (q + W * g) := by rw [hr]; ring
    rw [hr2, Nat.add_mul_mod_self_left, Nat.mod_eq_of_lt ht]

theorem tile_split_exists (W R r : Nat) (hW : 0 < W) (hR : 0 < R) :
    r % (W * R) % R < R ∧ r % (W * R) / R < W ∧
      W * R * (r / (W * R)) + r % (W * R) % R + r % (W * R) / R * R = r := by
  have hT : 0 < W * R := Nat.mul_pos hW hR
  refine ⟨Nat.mod_lt _ hR, ?_, ?_⟩
  · rw [Nat.div_lt_iff_lt_mul hR]; exact Nat.mod_lt _ hT
  · have h1 := Nat.div_add_mod r (W * R)
    have h2 := Nat.mod_add_div (r % (W * R)) R
    have h3 : r % (W * R) / R * R = R * (r % (W * R) / R) := Nat.mul_comm _ _
    omega

theorem store_coordinates (TSM TSN RTSM RTSN : Nat) (s : StoreSite) :
    store_globalRow TSM TSN RTSM RTSN s = TSM * s.group_id_1 + s.tidm + s.wm * RTSM ∧
    store_globalCol TSM TSN RTSM RTSN s = TSN * s.group_id_0 + s.tidn + s.wn * RTSN := by
  constructor <;>
    simp [store_globalRow, store_globalCol, globalRow_expr, globalCol_expr, KExp.eval, store_env]

/-- The grid dimension computed by `gemm` covers the tile of every position below the
problem size, as long as the divisor is not zero modulo `2 ^ w`. -/
theorem grid_covers (w M d r : Nat) (hMw : M < 2 ^ w) (hd : d % 2 ^ w ≠ 0) (hr : r < M) :
    r / d < (((M + (2 ^ w - 1)) % 2 ^ w) / (d % 2 ^ w) + 1) % 2 ^ w := by
  have h1 : M + (2 ^ w - 1) = (M - 1) + 2 ^ w := by omega
  have h2 : (M - 1) / (d % 2 ^ w) ≤ M - 1 := Nat.div_le_self _ _
  have h3 : r / d ≤ (M - 1) / d := Nat.div_le_div_right (by omega)
  have h4 : (M - 1) / d ≤ (M - 1) / (d % 2 ^ w) :=
    Nat.div_le_div_left (Nat.mod_le _ _) (Nat.pos_of_ne_zero hd)
  rw [h1, Nat.add_mod_right, Nat.mod_eq_of_lt (by omega : M - 1 < 2 ^ w),
    Nat.mod_eq_of_lt (by omega)]
  omega

/-- C16: with the launch grid computed by `gemm` (sizes below `2 ^ w`, tile products not zero
modulo `2 ^ w`, in particular when they are representable in `int_tp`), for every output position `(r, c)` with `r < M` and `c < N` there is
exactly one store site (work-group inside the grid, thread inside the work-group, register
indices inside the per-thread block) whose store-phase coordinates are `(r, c)`. -/
theorem every_output_written_once (w M N wptm wptn rtsn rtsm : Nat)
    (hMw : M < 2 ^ w) (hNw : N < 2 ^ w)
    (hwptm : 0 < wptm) (hwptn : 0 < wptn) (hrtsn : 0 < rtsn) (hrtsm : 0 < rtsm)
    (hdivN : (wptn * rtsn) % 2 ^ w ≠ 0) (hdivM : (wptm * rtsm) % 2 ^ w ≠ 0)
    (r c : Nat) (hr : r < M) (hc : c < N) :
    ∃! s : StoreSite,
      s.group_id_1 < ((gemm_launch w M N wptn wptm rtsn rtsm).group).getD 1 0 ∧
      s.group_id_0 < ((gemm_launch w M N wptn wptm rtsn rtsm).group).getD 0 0 ∧
      s.tidm < rtsm ∧ s.tidn < rtsn ∧ s.wm < wptm ∧ s.wn < wptn ∧
      store_globalRow (wptm * rtsm) (wptn * rtsn) rtsm rtsn s = r ∧
      store_globalCol (wptm * rtsm) (wptn * rtsn) rtsm rtsn s = c := by
  simp only [gemm_launch, List.getD_cons_zero, List.getD_cons_succ, store_coordinates]
  obtain ⟨hr1, hr2, hr3⟩ := tile_split_exists wptm rtsm r hwptm hrtsm
  obtain ⟨hc1, hc2, hc3⟩ := tile_split_exists wptn rtsn c hwptn hrtsn
  have hgr := grid_covers w M (wptm * rtsm) r hMw hdivM hr
  have hgc := grid_covers w N (wptn * rtsn) c hNw hdivN hc
  refine ⟨⟨c / (wptn * rtsn), r / (wptm * rtsm), r % (wptm * rtsm) % rtsm,
    c % (wptn * rtsn) % rtsn, r % (wptm * rtsm) / rtsm, c % (wptn * rtsn) / rtsn⟩,
    ⟨hgr, hgc, hr1, hc1, hr2, hc2, hr3, hc3⟩, ?_⟩
  rintro ⟨g0, g1, tm, tn, qm, qn⟩ ⟨-, -, htm, htn, hqm, hqn, hrow, hcol⟩
  obtain ⟨e1, e2, e3⟩ := tile_split_unique wptm rtsm g1 tm qm r htm hqm hrow
  obtain ⟨f1, f2, f3⟩ := tile_split_unique wptn rtsn g0 tn qn c htn hqn hcol
  have hm : r % (wptm * rtsm) % rtsm = r % rtsm :=
    Nat.mod_mod_of_dvd r (Dvd.intro_left wptm rfl)
  have hn : c % (wptn * rtsn) % rtsn = c % rtsn :=
    Nat.mod_mod_of_dvd c (Dvd.intro_left wptn rfl)
  simp only [StoreSite.mk.injEq]
  exact ⟨f1, e1, by rw [hm]; exact e3, by rw [hn]; exact f3, e2, f2⟩

/-- C16 on a 32-bit build with `M = 5`, `N = 3` and 2-by-2 tiles of 2-by-2 threads: position
`(4, 2)` is written by exactly one store site. -/
theorem every_output_written_once_witness :
    ∃! s : StoreSite,
      s.group_id_1 < ((gemm_launch 32 5 3 2 2 2 2).group).getD 1 0 ∧
      s.group_id_0 < ((gemm_launch 32 5 3 2 2 2 2).group).getD 0 0 ∧
      s.tidm < 2 ∧ s.tidn < 2 ∧ s.wm < 2 ∧ s.wn < 2 ∧
      store_globalRow (2 * 2) (2 * 2) 2 2 s = 4 ∧
      store_globalCol (2 * 2) (2 * 2) 2 2 s = 2 :=
  every_output_written_once 32 5 3 2 2 2 2 (by decide) (by decide) (by decide) (by decide)
    (by decide) (by decide) (by decide) (by decide) 4 2 (by decide) (by decide)

/-! ### Load phase: local tile indices -/

theorem tdiv_natCast (a b : Nat) : Int.tdiv (a : Int) (b : Int) = ((a / b : Nat) : Int) := by
  rw [Int.tdiv_eq_ediv (Int.natCast_nonneg a) (Int.natCast_nonneg b)]
  norm_cast

/-- The derived values of lines 104-114 for natural-number tile parameters. -/
theorem tile_source_values (rtsn rtsm tsk wptm wptn : Nat) (trans_A trans_B : Bool)
    (M N K : Nat) (alpha_term beta_term : Bool) (prec : libdnnAccumulatePrecision_t) :
    let src := generate_gemm_source (tile_config rtsn rtsm tsk wptm wptn) trans_A trans_B M N K
      alpha_term beta_term prec
    src.tsm = ((wptm * rtsm : Nat) : Int) ∧ src.tsn = ((wptn * rtsn : Nat) : Int) ∧
    src.lpta = ((wptm * rtsm * tsk / (rtsm * rtsn) : Nat) : Int) ∧
    src.lptb = ((wptn * rtsn * tsk / (rtsm * rtsn) : Nat) : Int) := by
  intro src
  have h0 : tile_config rtsn rtsm tsk wptm wptn "workgroup_size_0" = rtsn := by
    simp [tile_config]
  have h1 : tile_config rtsn rtsm tsk wptm wptn "workgroup_size_1" = rtsm := by
    simp [tile_config]
  have hk : tile_config rtsn rtsm tsk wptm wptn "TSK" = tsk := by simp [tile_config]
  have hm : tile_config rtsn rtsm tsk wptm wptn "WPTM" = wptm := by simp [tile_config]
  have hn : tile_config rtsn rtsm tsk wptm wptn "WPTN" = wptn := by simp [tile_config]
  refine ⟨?_, ?_, ?_, ?_⟩
  · simp only [src, generate_gemm_source, h1, hm]; norm_cast
  · simp only [src, generate_gemm_source, h0, hn]; norm_cast
  · simp only [src, generate_gemm_source, h0, h1, hk, hm]
    rw [← tdiv_natCast]; norm_cast
  · simp only [src, generate_gemm_source, h0, h1, hk, hn]
    rw [← tdiv_natCast]; norm_cast

/-- With `L = X / (RTSM * RTSN)` loads per thread, every load id is below `X`. -/
theorem load_id_lt (rtsn rtsm X l tidm tidn : Nat) (hl : l < X / (rtsm * rtsn))
    (htm : tidm < rtsm) (htn : tidn < rtsn) : load_id rtsn rtsm l tidm tidn < X := by
  have htid : tidm * rtsn + tidn < rtsm * rtsn := row_major_bound tidm tidn rtsm rtsn htm htn
  have h1 : (l + 1) * (rtsm * rtsn) ≤ X / (rtsm * rtsn) * (rtsm * rtsn) :=
    Nat.mul_le_mul_right _ hl
  have h2 : X / (rtsm * rtsn) * (rtsm * rtsn) ≤ X := Nat.div_mul_le_self _ _
  have h3 : l * rtsn * rtsm = l * (rtsm * rtsn) := by ring
  have h4 : (l + 1) * (rtsm * rtsn) = l * (rtsm * rtsn) + rtsm * rtsn := by ring
  simp only [load_id]
  omega

/-- C17: for positive `TSK`, `WPTN`, `workgroup_size_0` (and any `WPTM`, `workgroup_size_1`
that admit a thread and a load at all), every
thread of a work-group and every `la < LPTA`, the A-load indices `row = id / TSK`,
`col = id % TSK` satisfy `row < TSM` and `col < TSK`; and for every `lb < LPTB` the B-load
indices `row = id / TSN`, `col = id % TSN` satisfy `row < TSK` and `col < TSN`, with `TSM`,
`TSN`, `LPTA`, `LPTB` as `generate_gemm_source` computes them. -/
theorem local_tile_indices_in_range (rtsn rtsm tsk wptm wptn : Nat)
    (hrtsn : 0 < rtsn) (htsk : 0 < tsk) (hwptn : 0 < wptn)
    (trans_A trans_B : Bool) (M N K : Nat) (alpha_term beta_term : Bool)
    (prec : libdnnAccumulatePrecision_t) (tidm tidn la lb : Nat)
    (htm : tidm < rtsm) (htn : tidn < rtsn) :
    let src := generate_gemm_source (tile_config rtsn rtsm tsk wptm wptn) trans_A trans_B M N K
      alpha_term beta_term prec
    ((la : Int) < src.lpta →
      ((load_id rtsn rtsm la tidm tidn / tsk : Nat) : Int) < src.tsm ∧
      load_id rtsn rtsm la tidm tidn % tsk < tsk) ∧
    ((lb : Int) < src.lptb →
      load_id rtsn rtsm lb tidm tidn / src.tsn.toNat < tsk ∧
      ((load_id rtsn rtsm lb tidm tidn % src.tsn.toNat : Nat) : Int) < src.tsn) := by
  intro src
  obtain ⟨hsm, hsn, hla, hlb⟩ := tile_source_values rtsn rtsm tsk wptm wptn trans_A trans_B
    M N K alpha_term beta_term prec
  have hTSN : 0 < wptn * rtsn := Nat.mul_pos hwptn hrtsn
  constructor
  · intro h
    have hl : la < wptm * rtsm * tsk / (rtsm * rtsn) := by
      have : (la : Int) < ((wptm * rtsm * tsk / (rtsm * rtsn) : Nat) : Int) := hla ▸ h
      exact_mod_cast this
    have hid := load_id_lt rtsn rtsm _ la tidm tidn hl htm htn
    refine ⟨?_, Nat.mod_lt _ htsk⟩
    have : load_id rtsn rtsm la tidm tidn / tsk < wptm * rtsm :=
      (Nat.div_lt_iff_lt_mul htsk).mpr hid
    rw [show src.tsm = ((wptm * rtsm : Nat) : Int) from hsm]
    exact_mod_cast this
  · intro h
    have hl : lb < wptn * rtsn * tsk / (rtsm * rtsn) := by
      have : (lb : Int) < ((wptn * rtsn * tsk / (rtsm * rtsn) : Nat) : Int) := hlb ▸ h
      exact_mod_cast this
    have hid := load_id_lt rtsn rtsm _ lb tidm tidn hl htm htn
    rw [show src.tsn = ((wptn * rtsn : Nat) : Int) from hsn, Int.toNat_ofNat]
    refine ⟨?_, by exact_mod_cast Nat.mod_lt _ hTSN⟩
    rw [Nat.div_lt_iff_lt_mul hTSN, Nat.mul_comm]
    exact hid

/-- C17 at the default tile parameters (`workgroup_size_0 = workgroup_size_1 = 16`,
`TSK = 8`, `WPTM = WPTN = 4`, so `LPTA = LPTB = 2`): the last thread in its last load stays
inside both tiles. -/
theorem local_tile_indices_in_range_witness :
    (((load_id 16 16 1 15 15 / 8 : Nat) : Int) <
        (generate_gemm_source (tile_config 16 16 8 4 4) false false 2 2 3 false false
          LIBDNN_ACCUMULATE_PREC_NATIVE).tsm ∧
      load_id 16 16 1 15 15 % 8 < 8) ∧
    (generate_gemm_source (tile_config 16 16 8 4 4) false false 2 2 3 false false
        LIBDNN_ACCUMULATE_PREC_NATIVE).lpta = 2 :=
  ⟨(local_tile_indices_in_range 16 16 8 4 4 (by decide) (by decide) (by decide)
      false false 2 2 3 false false LIBDNN_ACCUMULATE_PREC_NATIVE 15 15 1 1
      (by decide) (by decide)).1 (by decide),
    by decide⟩

/-! ### Generated text: braces -/

theorem char_count_append (c : Char) (s t : String) :
    char_count c (s ++ t) = char_count c s + char_count c t := by
  simp [char_count, String.data_append, List.count_append]

theorem char_count_concat (c : Char) (ps : List Piece) :
    char_count c (concat_pieces ps) = lit_count c ps + frag_count c ps := by
  induction ps with
  | nil => rfl
  | cons p ps ih =>
    cases p <;> simp only [concat_pieces, Piece.text, char_count_append, ih, lit_count,
      frag_count] <;> omega

theorem lit_count_append (c : Char) (ps qs : List Piece) :
    lit_count c (ps ++ qs) = lit_count c ps + lit_count c qs := by
  induction ps with
  | nil => simp [lit_count]
  | cons p ps ih => cases p <;> simp [lit_count, ih, Nat.add_assoc]

theorem frag_count_append (c : Char) (ps qs : List Piece) :
    frag_count c (ps ++ qs) = frag_count c ps + frag_count c qs := by
  induction ps with
  | nil => simp [frag_count]
  | cons p ps ih => cases p <;> simp [frag_count, ih, Nat.add_assoc]

theorem frag_count_lines (c : Char) (ls : List String) : frag_count c (lines ls) = 0 := by
  induction ls with
  | nil => rfl
  | cons l ls ih => simpa [lines, frag_count] using ih

theorem lit_count_map_frag (c : Char) {α : Type} (f : α → String) (l : List α) :
    lit_count c (l.map (fun d => Piece.frag (f d))) = 0 := by
  induction l with
  | nil => rfl
  | cons a l ih => simpa [lit_count] using ih

theorem accreg_type_eq (get_param get_param2 : String → Int)
    (trans_A trans_B trans_A2 trans_B2 : Bool) (M N K M2 N2 K2 : Nat)
    (alpha_term beta_term alpha_term2 beta_term2 : Bool) (prec : libdnnAccumulatePrecision_t) :
    (generate_gemm_source get_param trans_A trans_B M N K alpha_term beta_term
      prec).accreg_type =
    (generate_gemm_source get_param2 trans_A2 trans_B2 M2 N2 K2 alpha_term2 beta_term2
      prec).accreg_type := by
  cases prec <;> rfl

/-- The literal pieces do not depend on the collaborators, the configuration, the sizes or
the alpha and beta flags. -/
theorem lit_count_independent (c : Char) (dt : DeviceText) (get_param : String → Int)
    (trans_A trans_B : Bool) (M N K : Nat) (alpha_term beta_term : Bool)
    (prec : libdnnAccumulatePrecision_t) :
    lit_count c (generate_gemm_source_pieces dt get_param trans_A trans_B M N K alpha_term
      beta_term prec) =
    lit_count c (generate_gemm_source_pieces example_device_text (fun _ => 0) trans_A trans_B
      0 0 0 false false prec) := by
  simp only [generate_gemm_source_pieces, lit_count_append, lit_count, lit_count_map_frag,
    accreg_type_eq get_param (fun _ => 0) trans_A trans_B trans_A trans_B M N K 0 0 0 alpha_term
      beta_term false false prec]

/-- The text the generator writes itself has 12 opening and 15 closing braces, whatever the
flags, sizes, precision and configuration. -/
theorem literal_brace_counts (dt : DeviceText) (get_param : String → Int)
    (trans_A trans_B : Bool) (M N K : Nat) (alpha_term beta_term : Bool)
    (prec : libdnnAccumulatePrecision_t) :
    lit_count '\x7b' (generate_gemm_source_pieces dt get_param trans_A trans_B M N K alpha_term
      beta_term prec) = 12 ∧
    lit_count '\x7d' (generate_gemm_source_pieces dt get_param trans_A trans_B M N K alpha_term
      beta_term prec) = 15 := by
  rw [lit_count_independent, lit_count_independent '\x7d']
  cases trans_A <;> cases trans_B <;> cases prec <;> exact ⟨by decide, by decide⟩

theorem frag_count_defines (dt : DeviceText) (h : dt.fragments_balanced)
    (l : List (String × Int)) :
    frag_count '\x7b' (l.map (fun d => Piece.frag (dt.define d.1 d.2))) =
      frag_count '\x7d' (l.map (fun d => Piece.frag (dt.define d.1 d.2))) := by
  induction l with
  | nil => rfl
  | cons a l ih => simp only [List.map_cons, frag_count, ih, h.define]

/-- Under the balance assumption the delegated pieces contribute one opening brace more than
closing braces: the one of the function header. -/
theorem fragment_brace_counts (dt : DeviceText) (h : dt.fragments_balanced)
    (get_param : String → Int) (trans_A trans_B : Bool) (M N K : Nat)
    (alpha_term beta_term : Bool) (prec : libdnnAccumulatePrecision_t) :
    frag_count '\x7b' (generate_gemm_source_pieces dt get_param trans_A trans_B M N K alpha_term
      beta_term prec) =
    frag_count '\x7d' (generate_gemm_source_pieces dt get_param trans_A trans_B M N K alpha_term
      beta_term prec) + 1 := by
  simp only [generate_gemm_source_pieces, frag_count_append, frag_count, frag_count_lines,
    frag_count_defines dt h, h.define, h.setup, h.atomics, h.define_vector_type, h.vector_accessors,
    h.function, h.local_id, h.group_id, h.local_mem, h.local_barrier, h.generate_accreg_init,
    h.generate_gemm_core]
  omega

/-- A well-nested text that starts with `depth` braces open closes `depth` braces more than
it opens. -/
theorem well_nested_count : ∀ (cs : List Char) (depth : Nat), well_nested cs depth = true →
    cs.count '\x7b' + depth = cs.count '\x7d' := by
  intro cs
  induction cs with
  | nil =>
    intro depth h
    simp only [well_nested, beq_iff_eq] at h
    simp [h]
  | cons c cs ih =>
    intro depth h
    simp only [well_nested] at h
    split_ifs at h with h1 h2
    · have := ih (depth + 1) h
      subst h1
      rw [List.count_cons_self, List.count_cons_of_ne (by decide)]
      omega
    · subst h2
      cases depth with
      | zero => simp at h
      | succ d =>
        have := ih d h
        rw [List.count_cons_self, List.count_cons_of_ne (by decide)]
        omega
    · have := ih depth h
      rw [List.count_cons_of_ne (Ne.symm h1), List.count_cons_of_ne (Ne.symm h2)]
      exact this

/-- For every input and every choice of balanced collaborator texts, the returned source has
two closing braces more than opening braces, so it is not brace-balanced. -/
theorem generated_source_closes_two_more (dt : DeviceText) (h : dt.fragments_balanced)
    (get_param : String → Int) (trans_A trans_B : Bool) (M N K : Nat)
    (alpha_term beta_term : Bool) (prec : libdnnAccumulatePrecision_t) :
    char_count '\x7d' (generate_gemm_source_text dt get_param trans_A trans_B M N K alpha_term
      beta_term prec) =
    char_count '\x7b' (generate_gemm_source_text dt get_param trans_A trans_B M N K alpha_term
      beta_term prec) + 2 ∧
    brace_balanced (generate_gemm_source_text dt get_param trans_A trans_B M N K alpha_term
      beta_term prec) = false := by
  have hl := literal_brace_counts dt get_param trans_A trans_B M N K alpha_term beta_term prec
  have hf := fragment_brace_counts dt h get_param trans_A trans_B M N K alpha_term beta_term prec
  have hc : char_count '\x7d' (generate_gemm_source_text dt get_param trans_A trans_B M N K
      alpha_term beta_term prec) =
    char_count '\x7b' (generate_gemm_source_text dt get_param trans_A trans_B M N K alpha_term
      beta_term prec) + 2 := by
    simp only [generate_gemm_source_text, char_count_concat, hl.1, hl.2]
    omega
  refine ⟨hc, ?_⟩
  cases hb : brace_balanced (generate_gemm_source_text dt get_param trans_A trans_B M N K
      alpha_term beta_term prec) with
  | false => rfl
  | true =>
    have := well_nested_count _ 0 hb
    simp only [char_count] at hc
    omega

theorem plain_device_text_balanced : plain_device_text.fragments_balanced := by
  constructor <;> intros <;> rfl

set_option maxRecDepth 100000 in
/-- C18 on collaborator texts in the style of an OpenCL backend (every fragment of the
emitted text is brace-balanced and the function header opens one brace) and the request
`gemm(CblasNoTrans, CblasNoTrans, M = 2, N = 2, K = 3, ...)`: the generator itself writes 12
opening and 15 closing braces, the returned source has 14 opening and 16 closing braces, and
it is not brace-balanced. -/
theorem generated_source_unbalanced :
    lit_count '\x7b' (generate_gemm_source_pieces example_device_text
        (initialize_gemm_tuner example_device ⟨[], []⟩).get_param true false 2 2 3 false false
        LIBDNN_ACCUMULATE_PREC_NATIVE) = 12 ∧
    lit_count '\x7d' (generate_gemm_source_pieces example_device_text
        (initialize_gemm_tuner example_device ⟨[], []⟩).get_param true false 2 2 3 false false
        LIBDNN_ACCUMULATE_PREC_NATIVE) = 15 ∧
    frag_count '\x7b' (generate_gemm_source_pieces example_device_text
        (initialize_gemm_tuner example_device ⟨[], []⟩).get_param true false 2 2 3 false false
        LIBDNN_ACCUMULATE_PREC_NATIVE) = 2 ∧
    frag_count '\x7d' (generate_gemm_source_pieces example_device_text
        (initialize_gemm_tuner example_device ⟨[], []⟩).get_param true false 2 2 3 false false
        LIBDNN_ACCUMULATE_PREC_NATIVE) = 1 ∧
    char_count '\x7b' (generate_gemm_source_text example_device_text
        (initialize_gemm_tuner example_device ⟨[], []⟩).get_param true false 2 2 3 false false
        LIBDNN_ACCUMULATE_PREC_NATIVE) = 14 ∧
    char_count '\x7d' (generate_gemm_source_text example_device_text
        (initialize_gemm_tuner example_device ⟨[], []⟩).get_param true false 2 2 3 false false
        LIBDNN_ACCUMULATE_PREC_NATIVE) = 16 ∧
    brace_balanced (generate_gemm_source_text example_device_text
        (initialize_gemm_tuner example_device ⟨[], []⟩).get_param true false 2 2 3 false false
        LIBDNN_ACCUMULATE_PREC_NATIVE) = false := by
  decide

end LibDNNBlas
